import Mathlib

/-!
Verification of the SpyTON buybot core pipeline (pool poller, event
extractor, metrics cache, channel deduplication, leaderboard) against its
natural-language specification.

The Python modules `pool_watcher.py`, `utils.py`, `formatters.py`,
`metrics.py`, `dexscreener.py`, `db.py` and the polling/dedup part of
`main.py` are shallowly embedded below.  JSON-like Python data is modelled
by a tagged value type `JValue`; operations that can raise in Python
(attribute access on a non-dict, `int()`/`float()` conversions, `max` of an
empty list, iteration of a non-iterable) are modelled in the `Except PyErr`
monad, and each `try/except` of the source appears as an explicit catch.
Numbers are modelled as rationals: the concrete constants the claims are
about (powers of ten, small integers) are exactly representable, and the
source's comparisons and divisions carry over unchanged.  Division is
written through `ratDiv` (a definitionally-evaluating form of rational
division; `ratDiv_eq_div` identifies it with `/`).  Wall-clock timestamps
(`time.time()` values compared against whole-second TTLs) are modelled as
integers.  String digit tests are modelled over ASCII digits, and
`float()` string parsing is modelled as plain decimal notation (no
exponents), which agrees with the source on every input appearing in the
development.
-/

set_option maxHeartbeats 1000000

namespace SpyTON

/-- Kinds of Python exceptions raised by the embedded code paths. -/
inductive PyErr where
  | attributeError
  | typeError
  | valueError
  deriving DecidableEq, Repr

mutual
/-- A JSON-like Python value: `None`, `bool`, number, string, list, dict
(insertion-ordered association list). -/
inductive JValue where
  | null
  | bool (b : Bool)
  | num (q : ℚ)
  | str (s : String)
  | arr (xs : JArr)
  | obj (kvs : JObj)
/-- A Python list of `JValue`s. -/
inductive JArr where
  | anil
  | acons (v : JValue) (rest : JArr)
/-- A Python dict with string keys, in insertion order. -/
inductive JObj where
  | onil
  | ocons (k : String) (v : JValue) (rest : JObj)
end

deriving instance DecidableEq for JValue

deriving instance DecidableEq for JArr

deriving instance DecidableEq for JObj

deriving instance DecidableEq for Except

mutual
/-- Structural boolean equality on `JValue`. -/
def JValue.beqv : JValue → JValue → Bool
  | .null, .null => true
  | .bool a, .bool b => a == b
  | .num a, .num b => a == b
  | .str a, .str b => a == b
  | .arr a, .arr b => a.beqa b
  | .obj a, .obj b => a.beqo b
  | _, _ => false
/-- Structural boolean equality on `JArr`. -/
def JArr.beqa : JArr → JArr → Bool
  | .anil, .anil => true
  | .acons v r, .acons v' r' => v.beqv v' && r.beqa r'
  | _, _ => false
/-- Structural boolean equality on `JObj`. -/
def JObj.beqo : JObj → JObj → Bool
  | .onil, .onil => true
  | .ocons k v r, .ocons k' v' r' => k == k' && v.beqv v' && r.beqo r'
  | _, _ => false
end

/-- Dict lookup (first matching key). -/
def JObj.lookup : JObj → String → Option JValue
  | .onil, _ => none
  | .ocons k v rest, key => if k = key then some v else rest.lookup key

/-- Number of entries of a dict. -/
def JObj.isEmptyO : JObj → Bool
  | .onil => true
  | .ocons _ _ _ => false

/-- Python truthiness of a value. -/
def JValue.truthy : JValue → Bool
  | .null => false
  | .bool b => b
  | .num q => decide (q ≠ 0)
  | .str s => !s.isEmpty
  | .arr .anil => false
  | .arr (.acons _ _) => true
  | .obj .onil => false
  | .obj (.ocons _ _ _) => true

/-- Python `a or b` on values (returns `a` when truthy, else `b`). -/
def pyOr (a b : JValue) : JValue := if a.truthy then a else b

/-- Python `v.get(k)`: `AttributeError` unless `v` is a dict; a missing key
yields `None`. -/
def pyGet (v : JValue) (k : String) : Except PyErr JValue :=
  match v with
  | .obj kvs => .ok ((kvs.lookup k).getD .null)
  | _ => .error .attributeError

/-- Python `v.get(k, default)`. -/
def pyGetD (v : JValue) (k : String) (d : JValue) : Except PyErr JValue :=
  match v with
  | .obj kvs => .ok ((kvs.lookup k).getD d)
  | _ => .error .attributeError

mutual
/-- `_walk` of `pool_watcher.py`: yield every `(key, value)` pair of a
nested structure, a dict entry followed by the walk of its value, list
items walked in order. -/
def JValue.walk : JValue → List (String × JValue)
  | .obj kvs => kvs.walkO
  | .arr xs => xs.walkA
  | _ => []
/-- `_walk` restricted to dict entries. -/
def JObj.walkO : JObj → List (String × JValue)
  | .onil => []
  | .ocons k v rest => (k, v) :: (v.walk ++ rest.walkO)
/-- `_walk` restricted to list items. -/
def JArr.walkA : JArr → List (String × JValue)
  | .anil => []
  | .acons v rest => v.walk ++ rest.walkA
end

/-- The keys of a dict, in insertion order (Python iteration over a dict). -/
def JObj.keysO : JObj → List String
  | .onil => []
  | .ocons k _ rest => k :: rest.keysO

/-- The items of a Python list. -/
def JArr.itemsA : JArr → List JValue
  | .anil => []
  | .acons v rest => v :: rest.itemsA

/-- Python iteration `for x in v`: lists yield items, strings yield
one-character strings, dicts yield their keys, other values raise
`TypeError`. -/
def pyIter (v : JValue) : Except PyErr (List JValue) :=
  match v with
  | .arr xs => .ok xs.itemsA
  | .str s => .ok (s.toList.map (fun c => .str (String.singleton c)))
  | .obj kvs => .ok (kvs.keysO.map .str)
  | .null => .error .typeError
  | .bool _ => .error .typeError
  | .num _ => .error .typeError

/-- ASCII whitespace for Python `str.strip` / `int()` / `float()`. -/
def isPySpace (c : Char) : Bool :=
  c = ' ' || c = '\t' || c = '\n' || c = '\r' || c = '\x0b' || c = '\x0c'

/-- Python `s.strip()` over ASCII whitespace. -/
def pyStrip (s : String) : String :=
  String.mk (((s.toList.dropWhile isPySpace).reverse.dropWhile isPySpace).reverse)

/-- ASCII lowercasing of one character. -/
def lowerChar (c : Char) : Char :=
  if 'A' ≤ c ∧ c ≤ 'Z' then Char.ofNat (c.toNat + 32) else c

/-- Python `s.lower()` over ASCII letters. -/
def pyLower (s : String) : String := String.mk (s.toList.map lowerChar)

/-- `needle` is a prefix of `haystack` (on characters). -/
def isPrefixChars : List Char → List Char → Bool
  | [], _ => true
  | _ :: _, [] => false
  | a :: as, b :: bs => a == b && isPrefixChars as bs

/-- Python `needle in haystack` on strings (substring test, on characters). -/
def isSubChars (needle : List Char) : List Char → Bool
  | [] => needle.isEmpty
  | b :: bs => isPrefixChars needle (b :: bs) || isSubChars needle bs

/-- Value of an ASCII digit string. -/
def digitsVal (cs : List Char) : ℕ :=
  cs.foldl (fun a c => a * 10 + (c.toNat - 48)) 0

/-- Python `int(s)` on a string: optional surrounding whitespace, optional
sign, one or more digits. -/
def parseIntStr (s : String) : Option ℤ :=
  let cs := (pyStrip s).toList
  let sign : ℤ := match cs with | '-' :: _ => -1 | _ => 1
  let ds := match cs with | '-' :: r => r | '+' :: r => r | _ => cs
  if ds ≠ [] ∧ ds.all Char.isDigit then some (sign * (digitsVal ds : ℤ)) else none

/-- Python `int(v)`: truncation toward zero for numbers, digit parsing for
strings, `0/1` for booleans; `none` models the conversion raising. -/
def pyToInt (v : JValue) : Option ℤ :=
  match v with
  | .num q => some (q.num / (q.den : ℤ))
  | .bool b => some (if b then 1 else 0)
  | .str s => parseIntStr s
  | _ => none

/-- Exact rational division built on `Rat.divInt` so that it evaluates
definitionally (the core field operations on `ℚ` are irreducible);
`ratDiv_eq_div` below identifies it with `/`. -/
def ratDiv (a b : ℚ) : ℚ := Rat.divInt (a.num * (b.den : ℤ)) ((a.den : ℤ) * b.num)

/-- Rational value of `sign intPart.fracPart`. -/
def decValue (neg : Bool) (intPart fracPart : List Char) : ℚ :=
  Rat.divInt
    ((if neg then -1 else 1) *
      ((digitsVal intPart : ℤ) * 10 ^ fracPart.length + (digitsVal fracPart : ℤ)))
    (10 ^ fracPart.length)

/-- Python `float(s)` on a string, modelled for plain decimal notation:
optional whitespace and sign, digits with at most one point, at least one
digit. -/
def parseFloatStr (s : String) : Option ℚ :=
  let cs := (pyStrip s).toList
  let neg : Bool := match cs with | '-' :: _ => true | _ => false
  let ds := match cs with | '-' :: r => r | '+' :: r => r | _ => cs
  match ds.splitOn '.' with
  | [a] => if a ≠ [] ∧ a.all Char.isDigit then some (decValue neg a []) else none
  | [a, b] =>
      if (a ++ b) ≠ [] ∧ a.all Char.isDigit ∧ b.all Char.isDigit then
        some (decValue neg a b)
      else none
  | _ => none

/-- Python `float(v)`; errors model the conversion raising. -/
def pyFloatE (v : JValue) : Except PyErr ℚ :=
  match v with
  | .num q => .ok q
  | .bool b => .ok (if b then 1 else 0)
  | .str s =>
      match parseFloatStr s with
      | some q => .ok q
      | none => .error .valueError
  | _ => .error .typeError

/-- Python `max` of a list of numbers: `ValueError` on the empty list. -/
def pyMaxE (l : List ℚ) : Except PyErr ℚ :=
  match l with
  | [] => .error .valueError
  | h :: t => .ok (t.foldl max h)

/-- `max(l) if l else None`, the guarded form used by the source. -/
def listMaxOpt (l : List ℚ) : Option ℚ :=
  match l with
  | [] => none
  | h :: t => some (t.foldl max h)

/-- `utils.nano_to_ton`: `None` stays `None`, otherwise `int(n) / 1e9`,
any conversion failure caught to `None`. -/
def nano_to_ton (n : JValue) : Option ℚ :=
  match n with
  | .null => none
  | v =>
      match pyToInt v with
      | some i => some (ratDiv (i : ℚ) ((10 ^ 9 : ℤ) : ℚ))
      | none => none

/-- `utils.safe_symbol`: strip, drop every character outside
`[A-Za-z0-9_$]`, keep at most 16 characters, default `"TOKEN"`. -/
def safe_symbol (sym : String) : String :=
  let cleaned :=
    String.mk ((pyStrip sym).toList.filter (fun c => c.isAlphanum || c = '_' || c = '$'))
  if cleaned.isEmpty then "TOKEN" else String.mk (cleaned.toList.take 16)

/-- `_find_first` of `pool_watcher.py`: the value of the first walked pair
whose key is in `keys`. -/
def _find_first (obj : JValue) (keys : List String) : Option JValue :=
  (obj.walk.find? (fun kv => keys.contains kv.1)).map Prod.snd

/-- Remove the first `.` of a string (Python `s.replace(".", "", 1)`). -/
def removeFirstDot (s : String) : String :=
  match s.toList.splitOn '.' with
  | [] => s
  | [_] => s
  | a :: b :: rest => String.mk (a ++ b ++ (rest.map (fun cs => '.' :: cs)).flatten)

/-- Body of the per-item `try` of `_find_numbers`: numbers (and booleans)
convert directly, strings are stripped and accepted when
`s.replace(".", "", 1).isdigit()`, anything else contributes nothing. -/
def findNumBody (v : JValue) : Except PyErr (Option ℚ) :=
  match v with
  | .num q => .ok (some q)
  | .bool b => .ok (some (if b then 1 else 0))
  | .str s0 =>
      let s := pyStrip s0
      if !s.isEmpty && !(removeFirstDot s).toList.isEmpty
          && (removeFirstDot s).toList.all Char.isDigit then
        (pyFloatE (.str s)).map some
      else .ok none
  | _ => .ok none

/-- `_find_numbers` of `pool_watcher.py`: collect the numeric values of all
walked pairs whose key is in `keys`; the per-item `try/except` swallows any
conversion failure. -/
def _find_numbers (obj : JValue) (keys : List String) : List ℚ :=
  obj.walk.foldl
    (fun out kv =>
      if keys.contains kv.1 then
        match findNumBody kv.2 with
        | .ok (some q) => out ++ [q]
        | .ok none => out
        | .error _ => out
      else out)
    []

/-- One iteration of the scan loop of `_extract_jetton_transfer`: update
the `(amount_raw, recipient)` state from one walked `(key, value)` pair.
The jetton-address mismatch `continue` skips the amount update of the same
pair. -/
def extractLoopStep (jetton_address : Option String)
    (st : Option JValue × Option String) (kv : String × JValue) :
    Option JValue × Option String :=
  let lk := pyLower kv.1
  let recipient :=
    if isSubChars "recipient".toList lk.toList
        || lk = "to" || lk = "destination" || lk = "dst" then
      match kv.2 with
      | .str s => if isPrefixChars "UQ".toList s.toList then some s else st.2
      | _ => st.2
    else st.2
  let jaTruthy := match jetton_address with | some ja => !ja.isEmpty | none => false
  let skipRest :=
    isSubChars "jetton".toList lk.toList
      && (match kv.2 with | .str s => isPrefixChars "EQ".toList s.toList | _ => false)
      && jaTruthy
      && (match kv.2, jetton_address with
          | .str s, some ja => decide (s ≠ ja)
          | _, _ => false)
  let amount_raw :=
    if skipRest then st.1
    else if (lk = "jetton_amount" || lk = "jettonamount" || lk = "amount")
        && (match kv.2 with | .num _ => true | .bool _ => true | .str _ => true | _ => false) then
      some kv.2
    else st.1
  (amount_raw, recipient)

/-- `max(l) if l else None`, written with the raising `max` so that the
guard, not the totality of the embedding, prevents the `ValueError`. -/
def guardedMaxE (l : List ℚ) : Except PyErr (Option ℚ) :=
  if l.isEmpty then .ok none
  else
    match pyMaxE l with
    | .ok m => .ok (some m)
    | .error e => .error e

/-- The tail of `_extract_jetton_transfer` (lines 66-75): take the largest
numeric candidate, else fall back to `float(amount_raw)` inside the
source's own `try/except`. -/
def extractFinish (st : Option JValue × Option String)
    (numsResult : Except PyErr (Option ℚ)) : Except PyErr (Option ℚ × Option String) :=
  match numsResult with
  | .error e => .error e
  | .ok num =>
      match num, st.1 with
      | none, some raw =>
          match pyFloatE raw with
          | .ok q => .ok (some q, st.2)
          | .error _ => .ok (none, st.2)
      | n, _ => .ok (n, st.2)

/-- `_extract_jetton_transfer` of `pool_watcher.py`: best-effort search of
a trace for a jetton transfer amount and recipient.  The guarded `max`
and the `float` conversion are the operations that could raise; the final
conversion sits in the source's own `try/except`. -/
def _extract_jetton_transferE (trace : JValue) (jetton_address : Option String) :
    Except PyErr (Option ℚ × Option String) :=
  if !trace.truthy then .ok (none, none)
  else
    extractFinish (trace.walk.foldl (extractLoopStep jetton_address) (none, none))
      (guardedMaxE (_find_numbers trace ["jetton_amount", "jettonamount", "amount"]))

/-- `db.GroupConfig`: one watched configuration. -/
structure GroupConfig where
  group_id : ℤ
  enabled : Bool
  approved : Bool
  min_buy_ton : ℚ
  token_symbol : Option String
  jetton_address : Option String
  stonfi_pool : Option String
  dedust_pool : Option String

/-- `formatters.BuyEvent`: the normalized event emitted by the Poller.
`buyer_address` and `tx_hash` carry whatever value the transaction record
held (`None` when absent); there is deliberately no `pool_address` and no
`ts` field, exactly as in the source dataclass. -/
structure BuyEvent where
  dex : String
  token_symbol : String
  jetton_address : Option String
  ton_amount : Option ℚ
  usd_amount : Option ℚ
  jetton_amount : Option ℚ
  buyer_address : JValue
  holders : Option ℤ := none
  price_usd : Option ℚ := none
  liquidity_usd : Option ℚ := none
  mcap_usd : Option ℚ := none
  ton_price_usd : Option ℚ := none
  tx_hash : JValue := .null
  links : List (String × String) := []
  rank : Option ℕ := none
  deriving DecidableEq

/-- One row of the `buys` table (`Database.add_buy`). -/
structure BuyRow where
  ts : ℤ
  group_id : ℤ
  dex : String
  token_symbol : Option String
  jetton_address : Option String
  pool_address : String
  buyer_address : JValue
  ton_amount : Option ℚ
  usd_amount : Option ℚ
  jetton_amount : Option ℚ
  tx_hash : JValue
  deriving DecidableEq

/-- The guarded logical-time parse of `poll_pool`:
`int(tx.get("transaction_id", {}).get("lt") or tx.get("lt") or 0)`, any
failure caught to `0`. -/
def parseLtE (tx : JValue) : Except PyErr ℤ := do
  let t1 ← pyGetD tx "transaction_id" (.obj .onil)
  let a ← pyGet t1 "lt"
  let b ← pyGet tx "lt"
  match pyToInt (pyOr (pyOr a b) (.num 0)) with
  | some i => pure i
  | none => Except.error .valueError

/-- `parseLtE` with the source's `except` branch (`lt = 0`). -/
def parseLt (tx : JValue) : ℤ :=
  match parseLtE tx with
  | .ok i => i
  | .error _ => 0

/-- The magnitude heuristic of `poll_pool` (lines 134-138): a raw jetton
figure above `1e12` is treated as nano units and divided by `1e9`. -/
def scaleRawJetton (r : ℚ) : ℚ :=
  if r > ((10 ^ 12 : ℤ) : ℚ) then ratDiv r ((10 ^ 9 : ℤ) : ℚ) else r

/-- The trace-parsing `try` block of `poll_pool` (lines 129-143), up to the
point where the caught exception would discard its results: fetch the
trace (`none` from the oracle models `get_trace` raising), extract the raw
jetton figure, scale it, and take the largest embedded USD figure. -/
def traceParse (trace : JValue) (jetton_address : Option String) :
    Except PyErr (Option ℚ × Option ℚ) :=
  match _extract_jetton_transferE trace jetton_address with
  | .error e => .error e
  | .ok ex =>
      match guardedMaxE (_find_numbers trace ["value_usd", "amount_usd", "usd"]) with
      | .error e => .error e
      | .ok usd => .ok (usd, ex.1.map scaleRawJetton)

/-- See `traceParse`; a `none` from the oracle models `get_trace` raising. -/
def traceBlockE (oracle : String → Option JValue) (jetton_address : Option String)
    (tid : String) : Except PyErr (Option ℚ × Option ℚ) :=
  match oracle tid with
  | none => .error .valueError
  | some trace => traceParse trace jetton_address

/-- The trace-heuristic step of `poll_pool` (lines 123-143): derive the
trace identifier, run the guarded trace block when it is a non-empty
string, and catch any exception (`except: pass` leaves both unknown).
The record lookups cannot fail here because `processTx` reaches this step
only after a successful dict lookup on the same record. -/
def traceAmounts (cfg : GroupConfig) (oracle : String → Option JValue) (tx : JValue) :
    Option ℚ × Option ℚ :=
  let trace_id :=
    pyOr (pyOr ((pyGet tx "trace_id").toOption.getD .null)
              ((pyGet tx "traceId").toOption.getD .null))
      ((_find_first tx ["trace_id", "traceId"]).getD .null)
  match trace_id with
  | .str s =>
      if s.isEmpty then (none, none)
      else
        match traceBlockE oracle cfg.jetton_address s with
        | .ok p => p
        | .error _ => (none, none)
  | _ => (none, none)

/-- The per-transaction body of `poll_pool` (lines 113-177): parse the
incoming message, apply the minimum-buy filter (`.ok none` models the
`continue`), run the trace heuristic with its catch, apply the fallbacks
and build the `BuyEvent` and the persisted row. -/
def processTx (cfg : GroupConfig) (dex sym pool : String)
    (oracle : String → Option JValue) (now : ℤ) (tx : JValue) :
    Except PyErr (Option (BuyEvent × BuyRow)) :=
  match pyGet tx "in_msg" with
  | .error e => .error e
  | .ok inMsgRaw =>
    let in_msg := pyOr inMsgRaw (.obj .onil)
    match pyGet in_msg "value" with
    | .error e => .error e
    | .ok value =>
      let ton_amount := nano_to_ton value
      match pyGetD tx "transaction_id" (.obj .onil) with
      | .error e => .error e
      | .ok t1 =>
        match pyGet t1 "hash" with
        | .error e => .error e
        | .ok h1 =>
          match pyGet tx "hash" with
          | .error e => .error e
          | .ok h2 =>
            let tx_hash := pyOr h1 h2
            match pyGet in_msg "source", pyGet in_msg "src", pyGet in_msg "from" with
            | .error e, _, _ => .error e
            | .ok _, .error e, _ => .error e
            | .ok _, .ok _, .error e => .error e
            | .ok s1, .ok s2, .ok s3 =>
              let buyer := pyOr (pyOr s1 s2) s3
              let skip : Bool :=
                decide (cfg.min_buy_ton ≠ 0)
                  && (match ton_amount with
                      | some a => decide (a < cfg.min_buy_ton)
                      | none => false)
              if skip then .ok none
              else
                let uj := traceAmounts cfg oracle tx
                let usd_amount :=
                  match uj.1 with
                  | none =>
                      listMaxOpt (_find_numbers tx
                        ["value_usd", "amount_usd", "usd", "total_value_usd"])
                  | some u => some u
                let jetton_amount :=
                  match uj.2 with
                  | none => listMaxOpt (_find_numbers tx ["jetton_amount", "jettonAmount"])
                  | some j => some j
                let ev : BuyEvent :=
                  { dex := dex, token_symbol := sym, jetton_address := cfg.jetton_address,
                    ton_amount := ton_amount, usd_amount := usd_amount,
                    jetton_amount := jetton_amount, buyer_address := buyer,
                    tx_hash := tx_hash }
                let row : BuyRow :=
                  { ts := now, group_id := cfg.group_id, dex := dex,
                    token_symbol := some sym, jetton_address := cfg.jetton_address,
                    pool_address := pool, buyer_address := buyer,
                    ton_amount := ton_amount, usd_amount := usd_amount,
                    jetton_amount := jetton_amount, tx_hash := tx_hash }
                .ok (some (ev, row))

/-- The main loop of `poll_pool` over the sorted new transactions: track
`newest_lt` (updated before any possibly-raising step, as in the source),
collect events and persisted rows in order. -/
def procAll (cfg : GroupConfig) (dex sym pool : String)
    (oracle : String → Option JValue) (now : ℤ) :
    List (ℤ × JValue) → ℤ → Except PyErr (ℤ × List BuyEvent × List BuyRow)
  | [], newest => pure (newest, [], [])
  | (lt, tx) :: rest, newest => do
      let newest1 := max newest lt
      let r ← processTx cfg dex sym pool oracle now tx
      let (nf, evs, rows) ← procAll cfg dex sym pool oracle now rest newest1
      match r with
      | none => pure (nf, evs, rows)
      | some (ev, row) => pure (nf, ev :: evs, row :: rows)

/-- The per-tick inputs of one pool: the fetched transaction page (`none`
models `get_account_transactions` raising) and the trace oracle. -/
structure PollInput where
  fetch : Option JValue
  trace : String → Option JValue

/-- What one `poll_pool` run produces: emitted events, persisted rows, and
the committed cursor watermark (`none` = no `set_pool_cursor` call). -/
structure PollOut where
  events : List BuyEvent
  buys : List BuyRow
  commit : Option ℤ
  deriving DecidableEq

/-- Line 95 of `poll_pool`:
`txs = data.get("transactions") or data.get("items") or []`, as the list
the loop iterates. -/
def pageTxsE (data : JValue) : Except PyErr (List JValue) := do
  let a ← pyGet data "transactions"
  let b ← pyGet data "items"
  pyIter (pyOr (pyOr a b) (.arr .anil))

/-- Lines 97-103 of `poll_pool`: keep a transaction when its parsed
logical time is truthy and strictly above the cursor
(`if lt and lt > last_lt`). -/
def keepNew (last_lt : ℤ) (tx : JValue) : Option (ℤ × JValue) :=
  if parseLt tx ≠ 0 ∧ parseLt tx > last_lt then some (parseLt tx, tx) else none

/-- Lines 95-103 of `poll_pool`: read the transaction page, keep the pairs
`(lt, tx)` with a truthy parsed logical time strictly above the cursor. -/
def newPairs (data : JValue) (last_lt : ℤ) : Except PyErr (List (ℤ × JValue)) := do
  let txs ← pageTxsE data
  pure (txs.filterMap (keepNew last_lt))

/-- `poll_pool` of `pool_watcher.py`: a failed fetch returns no events and
leaves the cursor alone; an empty new set returns before the cursor write;
otherwise the new transactions are processed oldest-first and the cursor
is committed to the final `newest_lt`. -/
def poll_pool (cfg : GroupConfig) (dex sym pool : String) (last_lt : ℤ)
    (inp : PollInput) (now : ℤ) : Except PyErr PollOut :=
  match inp.fetch with
  | none => .ok ⟨[], [], none⟩
  | some data => do
      let new ← newPairs data last_lt
      if new.isEmpty then pure (⟨[], [], none⟩ : PollOut)
      else do
        let sorted := List.insertionSort (fun x y : ℤ × JValue => x.1 ≤ y.1) new
        let (newest, evs, rows) ← procAll cfg dex sym pool inp.trace now sorted last_lt
        pure (⟨evs, rows, some newest⟩ : PollOut)

/-- Python `cfg.token_symbol or "TOKEN"`. -/
def pyOrStr (o : Option String) (d : String) : String :=
  match o with
  | some s => if s.isEmpty then d else s
  | none => d

/-- Truthiness filter on an optional pool address (`if cfg.stonfi_pool:`). -/
def optPool (o : Option String) : Option String :=
  match o with
  | some p => if p.isEmpty then none else some p
  | none => none

/-- Events of a gathered `poll_pool` result: an exception contributes
nothing (`gather(..., return_exceptions=True)` + `isinstance(r, list)`). -/
def eventsOf (r : Except PyErr PollOut) : List BuyEvent :=
  match r with
  | .ok o => o.events
  | .error _ => []

/-- Apply a `poll_pool` result's cursor commit to the cursor store; a
failed pool or an uncommitted run leaves the store unchanged. -/
def applyCommit (cs : String → ℤ) (pool : String) (r : Except PyErr PollOut) :
    String → ℤ :=
  match r with
  | .ok o =>
      match o.commit with
      | some w => fun q => if q = pool then w else cs q
      | none => cs
  | .error _ => cs

/-- `PoolWatcher.poll_group`: skip disabled configurations, poll the
configured pools (both read the cursor store as it stood at the start of
the tick, as the concurrent fetches do), collect the list results and
apply the cursor commits. -/
def poll_group (cfg : GroupConfig) (inps : String → PollInput) (now : ℤ)
    (cs : String → ℤ) : List BuyEvent × (String → ℤ) :=
  if !cfg.enabled then ([], cs)
  else
    let sym := safe_symbol (pyOrStr cfg.token_symbol "TOKEN")
    let r1 := (optPool cfg.stonfi_pool).map
      (fun p => (p, poll_pool cfg "STONfi" sym p (cs p) (inps p) now))
    let r2 := (optPool cfg.dedust_pool).map
      (fun p => (p, poll_pool cfg "DeDust" sym p (cs p) (inps p) now))
    let evs := (r1.elim [] (fun pr => eventsOf pr.2)) ++ (r2.elim [] (fun pr => eventsOf pr.2))
    let cs1 := r1.elim cs (fun pr => applyCommit cs pr.1 pr.2)
    let cs2 := r2.elim cs1 (fun pr => applyCommit cs1 pr.1 pr.2)
    (evs, cs2)

/-- One tick of `polling_loop` restricted to the Poller: run `poll_group`
over the enabled configurations in order, threading the cursor store, and
keep each configuration's emitted events. -/
def tick (cfgs : List GroupConfig) (inps : String → PollInput) (now : ℤ)
    (cs : String → ℤ) : List (List BuyEvent) × (String → ℤ) :=
  match cfgs with
  | [] => ([], cs)
  | c :: rest =>
      let pr := poll_group c inps now cs
      let tr := tick rest inps now pr.2
      (pr.1 :: tr.1, tr.2)

/-! ## Shared-channel deduplication (`main.py`) -/

/-- `CHANNEL_DEDUPE_TTL` of `main.py`. -/
def CHANNEL_DEDUPE_TTL : ℤ := 120

/-- `_channel_seen` of `main.py`: sweep entries older than the TTL, then
report whether the key is live; otherwise insert it with the current time. -/
def _channel_seen (key : JValue) (now : ℤ) (st : List (JValue × ℤ)) :
    Bool × List (JValue × ℤ) :=
  let st1 := st.filter (fun kv => !decide (now - kv.2 > CHANNEL_DEDUPE_TTL))
  if st1.any (fun kv => kv.1.beqv key) then (true, st1)
  else (false, st1 ++ [(key, now)])

/-- The fingerprint computation of `polling_loop` (`main.py` line 539):
`ev.tx_hash or f"{ev.dex}:{ev.pool_address}:{ev.buyer_address}:..."`.
The composite branch reads `ev.pool_address` and `ev.ts`, attributes the
`BuyEvent` dataclass does not define, so it raises `AttributeError`. -/
def channelKeyE (ev : BuyEvent) : Except PyErr JValue :=
  if ev.tx_hash.truthy then .ok ev.tx_hash else .error .attributeError

/-- The shared-channel gate of `polling_loop` over one tick's events:
compute each fingerprint, consult `_channel_seen`, and post the event to
the channel when it was not seen.  An exception aborts the remaining
events of the tick (it is caught only by the outer per-tick handler). -/
def postEventsE (now : ℤ) : List BuyEvent → List (JValue × ℤ) →
    Except PyErr (List BuyEvent × List (JValue × ℤ))
  | [], st => .ok ([], st)
  | ev :: rest, st => do
      let key ← channelKeyE ev
      let sr := _channel_seen key now st
      let (posts, st2) ← postEventsE now rest sr.2
      if sr.1 then pure (posts, st2) else pure (ev :: posts, st2)

/-! ## Metrics cache (`metrics.py`, `dexscreener.py`) -/

/-- A metrics snapshot: the `out` dict of `fetch_token_metrics`, in
insertion order. -/
abbrev Snapshot := List (String × JValue)

/-- Python dict assignment `d[k] = v`: update in place, else append. -/
def dictSet (d : Snapshot) (k : String) (v : JValue) : Snapshot :=
  if d.any (fun kv => kv.1 == k) then
    d.map (fun kv => if kv.1 == k then (k, v) else kv)
  else d ++ [(k, v)]

/-- Dict lookup with `None` default (`d.get(k)` on a known dict). -/
def jget (kvs : JObj) (k : String) : JValue := (kvs.lookup k).getD .null

/-- `metrics.MetricsCache`: TTL plus `{key: (timestamp, value)}`. -/
structure MetricsCache where
  ttl : ℤ
  cache : List (String × (ℤ × Snapshot))
  deriving DecidableEq

/-- `MetricsCache.get`: absent or older-than-TTL entries read as `None`. -/
def MetricsCache.get (c : MetricsCache) (key : String) (now : ℤ) : Option Snapshot :=
  match c.cache.find? (fun kv => kv.1 == key) with
  | none => none
  | some kv => if now - kv.2.1 > c.ttl then none else some kv.2.2

/-- `MetricsCache.set`: store `(now, val)` under the key. -/
def MetricsCache.set (c : MetricsCache) (key : String) (val : Snapshot) (now : ℤ) :
    MetricsCache :=
  if c.cache.any (fun kv => kv.1 == key) then
    { c with cache := c.cache.map (fun kv => if kv.1 == key then (key, (now, val)) else kv) }
  else { c with cache := c.cache ++ [(key, (now, val))] }

/-- The TonAPI `try` block of `fetch_token_metrics` (lines 34-41): set
holders/symbol/decimals from the jetton info; the `except: pass` keeps
whatever keys were assigned before an attribute error. -/
def jettonTry (j : JValue) (out : Snapshot) : Snapshot :=
  match j with
  | .obj kv =>
      let holders := pyOr (pyOr (jget kv "holders_count") (jget kv "holders")) (jget kv "holdersCount")
      let out1 := dictSet out "holders" holders
      let meta := pyOr (jget kv "metadata") (.obj .onil)
      match meta with
      | .obj mk =>
          let out2 := dictSet out1 "symbol" (pyOr (jget mk "symbol") (jget kv "symbol"))
          dictSet out2 "decimals" (pyOr (jget mk "decimals") (jget kv "decimals"))
      | _ => out1
  | _ => out

/-- Sort key of `DexScreener.extract_best_pair`:
`(p.get("liquidity", {}) or {}).get("usd") or 0`, coerced to a number.
A non-numeric key models Python's mixed-type comparison `TypeError`. -/
def cmpKeyE (p : JValue) : Except PyErr ℚ := do
  let liq ← pyGetD p "liquidity" (.obj .onil)
  let usd ← pyGet (pyOr liq (.obj .onil)) "usd"
  match pyOr usd (.num 0) with
  | .num q => pure q
  | .bool b => pure (if b then (1 : ℚ) else 0)
  | _ => Except.error .typeError

/-- `DexScreener.extract_best_pair`: pick the pair with the largest
liquidity key (stable descending sort, first element). -/
def extract_best_pairE (data : JValue) : Except PyErr (Option JValue) :=
  if !data.truthy then .ok none
  else do
    let pairsV : JValue :=
      match data with
      | .arr xs => .arr xs
      | .obj kv => pyOr (jget kv "pairs") (.arr .anil)
      | _ => .arr .anil
    if !pairsV.truthy then pure none
    else do
      let items ← pyIter pairsV
      let keyed ← items.mapM (fun p => do
        let k ← cmpKeyE p
        pure (k, p))
      match List.insertionSort (fun a b : ℚ × JValue => b.1 ≤ a.1) keyed with
      | [] => pure none
      | h :: _ => pure (some h.2)

/-- One iteration of `DexScreener.find_pools_for_dexes`: derive the dex
identifier, read the pair address, and `setdefault` the stonfi/dedust
entries. -/
def find_pools_step (pools : List (String × String)) (p : JValue) :
    Except PyErr (List (String × String)) := do
  let d1 ← pyGet p "dexId"
  let d2 ← pyGet p "dex"
  let d3 ← pyGet p "dex_name"
  let dex_id0 ←
    match pyOr (pyOr (pyOr d1 d2) d3) (.str "") with
    | .str s => pure (pyLower s)
    | _ => Except.error .attributeError
  let dex_id ←
    if dex_id0.isEmpty then do
      let labels ← pyGetD p "labels" (.obj .onil)
      let lv ← pyGet labels "dex"
      match pyOr lv (.str "") with
      | .str s => pure (pyLower s)
      | _ => Except.error .attributeError
    else pure dex_id0
  let pa1 ← pyGet p "pairAddress"
  let pa2 ← pyGet p "pair"
  let pa3 ← pyGet p "pair_id"
  match pyOr (pyOr pa1 pa2) pa3 with
  | .str s =>
      if s.isEmpty then pure pools
      else
        let pools1 :=
          if isSubChars "ston".toList dex_id.toList && !pools.any (fun kv => kv.1 == "stonfi") then
            pools ++ [("stonfi", s)]
          else pools
        let pools2 :=
          if (isSubChars "dedust".toList dex_id.toList || isSubChars "de_dust".toList dex_id.toList
                || isSubChars "de dust".toList dex_id.toList)
              && !pools1.any (fun kv => kv.1 == "dedust") then
            pools1 ++ [("dedust", s)]
          else pools1
        pure pools2
  | _ => pure pools

/-- `DexScreener.find_pools_for_dexes`. -/
def find_pools_for_dexesE (pairs_data : JValue) : Except PyErr (List (String × String)) := do
  let pairs : List JValue ←
    match pairs_data with
    | .arr xs => pure xs.itemsA
    | .obj kv => pyIter (pyOr (jget kv "pairs") (.arr .anil))
    | _ => pure []
  pairs.foldlM find_pools_step []

/-- Lines 58-65 of `fetch_token_metrics` for a truthy best pair: assign the
pair-derived keys; the boolean records whether an attribute error aborted
partway (keys assigned so far are kept). -/
def pairFields (p : JValue) (out : Snapshot) : Snapshot × Bool :=
  match p with
  | .obj kv =>
      let out1 := dictSet out "price_usd" (jget kv "priceUsd")
      match pyOr (jget kv "liquidity") (.obj .onil) with
      | .obj lk =>
          let out2 := dictSet out1 "liquidity_usd" (jget lk "usd")
          let out3 := dictSet out2 "mcap_usd" (pyOr (jget kv "marketCap") (jget kv "fdv"))
          let out4 := dictSet out3 "dex_url" (jget kv "url")
          (dictSet out4 "best_pair_address" (pyOr (jget kv "pairAddress") (jget kv "pair")), false)
      | _ => (out1, true)
  | _ => (out, true)

/-- The DexScreener `try` block of `fetch_token_metrics` (lines 56-70):
best-pair fields then per-dex pools, with `except: pass` keeping the keys
assigned before any failure. -/
def dsTry (data : JValue) (out : Snapshot) : Snapshot :=
  match extract_best_pairE data with
  | .error _ => out
  | .ok pairOpt =>
      let step :=
        match pairOpt with
        | some p => if p.truthy then pairFields p out else (out, false)
        | none => (out, false)
      if step.2 then step.1
      else
        match find_pools_for_dexesE data with
        | .error _ => step.1
        | .ok pools => pools.foldl (fun o kv => dictSet o (kv.1 ++ "_pool") (.str kv.2)) step.1

/-- The external responses one `fetch_token_metrics` miss would consume;
`none` models the corresponding outbound call raising. -/
structure MetricsResp where
  jetton : Option JValue
  tokenPairs : Option JValue
  tokenLatest : Option JValue

/-- Result of `fetch_token_metrics`: the returned snapshot, the number of
outbound calls issued, and the updated cache. -/
structure FetchResult where
  snapshot : Snapshot
  calls : ℕ
  cache : MetricsCache
  deriving DecidableEq

/-- `metrics.fetch_token_metrics`: `if cached: return cached` serves a
truthy (non-empty) fresh snapshot with zero outbound calls; otherwise the
jetton info and the DexScreener data are fetched best-effort and the
result — partial or empty — is cached as-is. -/
def fetch_token_metrics (key : String) (now : ℤ) (c : MetricsCache)
    (resp : MetricsResp) : FetchResult :=
  let hit :=
    match c.get key now with
    | some snap => if snap.isEmpty then none else some snap
    | none => none
  match hit with
  | some snap => ⟨snap, 0, c⟩
  | none =>
      let out1 :=
        match resp.jetton with
        | none => ([] : Snapshot)
        | some j => jettonTry j ([] : Snapshot)
      let d1 := resp.tokenPairs.getD .null
      let latestCalls : ℕ := if d1.truthy then 0 else 1
      let data := if d1.truthy then d1 else resp.tokenLatest.getD .null
      let out2 := dsTry data out1
      ⟨out2, 2 + latestCalls, c.set key out2 now⟩

/-! ## Leaderboard aggregation (`db.py`, `leaderboard.py`) -/

/-- One row of `Database.get_recent_leaderboard`'s result. -/
structure LBEntry where
  key : String
  vol_usd : ℚ
  buys : ℕ
  deriving DecidableEq, Repr

/-- `COALESCE(token_symbol, jetton_address, 'UNKNOWN')`. -/
def lbKey (r : BuyRow) : String :=
  match r.token_symbol with
  | some s => s
  | none =>
      match r.jetton_address with
      | some j => j
      | none => "UNKNOWN"

/-- Distinct values in order of first occurrence (SQL `GROUP BY` groups). -/
def firstKeys (l : List String) : List String :=
  l.foldl (fun acc k => if acc.contains k then acc else acc ++ [k]) []

/-- `ORDER BY vol_usd DESC, buys DESC` as a relation on rows. -/
def lbOrd (a b : LBEntry) : Prop :=
  b.vol_usd < a.vol_usd ∨ (a.vol_usd = b.vol_usd ∧ b.buys ≤ a.buys)

instance : DecidableRel lbOrd := fun a b => by
  unfold lbOrd
  infer_instance

instance : IsTotal LBEntry lbOrd := by
  constructor
  intro a b
  unfold lbOrd
  rcases lt_trichotomy a.vol_usd b.vol_usd with h | h | h
  · exact Or.inr (Or.inl h)
  · rcases Nat.le_total b.buys a.buys with hb | hb
    · exact Or.inl (Or.inr ⟨h, hb⟩)
    · exact Or.inr (Or.inr ⟨h.symm, hb⟩)
  · exact Or.inl (Or.inl h)

instance : IsTrans LBEntry lbOrd := by
  constructor
  intro a b c hab hbc
  unfold lbOrd at *
  rcases hab with h1 | ⟨h1, h1'⟩
  · rcases hbc with h2 | ⟨h2, _⟩
    · exact Or.inl (h2.trans h1)
    · exact Or.inl (h2 ▸ h1)
  · rcases hbc with h2 | ⟨h2, h2'⟩
    · exact Or.inl (h1 ▸ h2)
    · exact Or.inr ⟨h1.trans h2, h2'.trans h1'⟩

/-- `Database.get_recent_leaderboard`: keep the rows inside the trailing
window (`ts >= now - window_seconds`), group by the coalesced key, sum the
USD amounts with `NULL` as `0`, count the rows, order descending by volume
then by count, and keep at most `limit` groups. -/
def get_recent_leaderboard (rows : List BuyRow) (now window_seconds : ℤ)
    (limit : ℕ) : List LBEntry :=
  let recent := rows.filter (fun r => decide (now - window_seconds ≤ r.ts))
  let keys := firstKeys (recent.map lbKey)
  let groups := keys.map (fun k =>
    let mine := recent.filter (fun r => lbKey r == k)
    (⟨k, (mine.map (fun r => r.usd_amount.getD 0)).sum, mine.length⟩ : LBEntry))
  (List.insertionSort lbOrd groups).take limit

/-- `LeaderboardService.update_once`'s aggregation step: the query with
the fixed `limit=15`. -/
def update_once_items (rows : List BuyRow) (now window_seconds : ℤ) : List LBEntry :=
  get_recent_leaderboard rows now window_seconds 15

/-! ## Auxiliary definitions used by the statements -/

/-- Build a dict from a key/value list. -/
def jobjL : List (String × JValue) → JObj
  | [] => .onil
  | (k, v) :: rest => .ocons k v (jobjL rest)

/-- Build a Python list from a `List`. -/
def jarrL : List JValue → JArr
  | [] => .anil
  | v :: rest => .acons v (jarrL rest)

/-- The pools one configuration polls, in polling order. -/
def poolsOf (cfg : GroupConfig) : List String :=
  (optPool cfg.stonfi_pool).toList ++ (optPool cfg.dedust_pool).toList

/-- Run a sequence of poll ticks (each with its own configuration list,
inputs and timestamp), threading the cursor store. -/
def runTicks : List (List GroupConfig × (String → PollInput) × ℤ) →
    (String → ℤ) → (String → ℤ)
  | [], cs => cs
  | t :: rest, cs => runTicks rest (tick t.1 t.2.1 t.2.2 cs).2

/-- `foldl max` with a base, the shape of `poll_pool`'s `newest_lt`. -/
def foldlMax (n : ℤ) (l : List ℤ) : ℤ := l.foldl max n

/-- The native amount `poll_pool` derives from a transaction:
`nano_to_ton(tx.get("in_msg") or {}).get("value"))` with the attribute
errors it can raise. -/
def txTonAmountE (tx : JValue) : Except PyErr (Option ℚ) := do
  let inMsgRaw ← pyGet tx "in_msg"
  let value ← pyGet (pyOr inMsgRaw (.obj .onil)) "value"
  pure (nano_to_ton value)

/-- Specification-side windowed USD volume of a token key: the sum over
the persisted rows inside the window with that coalesced key, unknown USD
counted as zero. -/
def lbVolumeSpec (rows : List BuyRow) (now window_seconds : ℤ) (k : String) : ℚ :=
  ((rows.filter (fun r => decide (now - window_seconds ≤ r.ts) && (lbKey r == k))).map
    (fun r => r.usd_amount.getD 0)).sum

/-- Specification-side windowed buy count of a token key. -/
def lbCountSpec (rows : List BuyRow) (now window_seconds : ℤ) (k : String) : ℕ :=
  (rows.filter (fun r => decide (now - window_seconds ≤ r.ts) && (lbKey r == k))).length


/-! ## Concrete inputs used by claim witnesses -/

/-- A transaction record with the given logical time and hash, carrying a
parsable incoming value. -/
def mkTx (lt : ℚ) (h : String) : JValue :=
  .obj (jobjL [("transaction_id", .obj (jobjL [("lt", .num lt), ("hash", .str h)])),
               ("in_msg", .obj (jobjL [("value", .num 1000000000), ("source", .str "UQbuyer")]))])

def c1cfg : GroupConfig :=
  { group_id := 1, enabled := true, approved := true, min_buy_ton := 0,
    token_symbol := some "TKN", jetton_address := some "EQjet",
    stonfi_pool := some "POOL", dedust_pool := none }

def c1data : JValue := .obj (jobjL [("transactions", .arr (jarrL [mkTx 7 "h7"]))])

def c1inp : PollInput := ⟨some c1data, fun _ => none⟩

def c1out : PollOut :=
  (poll_pool c1cfg "STONfi" "TKN" "POOL" 3 c1inp 1000).toOption.getD ⟨[], [], none⟩


def c9cfg : GroupConfig :=
  { group_id := 1, enabled := true, approved := true, min_buy_ton := 0,
    token_symbol := some "TKN", jetton_address := some "EQjet",
    stonfi_pool := some "POOL", dedust_pool := none }

def c9data : JValue :=
  .obj (jobjL [("transactions",
    .arr (jarrL [mkTx 5 "h5", mkTx 3 "h3", mkTx 9 "h9", mkTx 1 "h1"]))])

def c8trace : JValue := .obj (jobjL [("jetton_amount", .num 5000000000000)])

def c3cfg : GroupConfig :=
  { group_id := 1, enabled := true, approved := true, min_buy_ton := 0,
    token_symbol := some "TKN", jetton_address := some "EQjet",
    stonfi_pool := some "POOL", dedust_pool := none }

def c3tx : JValue :=
  .obj (jobjL [("transaction_id", .obj (jobjL [("lt", .num 5), ("hash", .str "hneg")])),
               ("in_msg", .obj (jobjL [("value", .str "-1000000000"), ("source", .str "UQb")]))])

def c3data : JValue := .obj (jobjL [("transactions", .arr (jarrL [c3tx]))])

def c3wcfg : GroupConfig :=
  { group_id := 1, enabled := true, approved := true, min_buy_ton := 5,
    token_symbol := some "TKN", jetton_address := some "EQjet",
    stonfi_pool := some "POOL", dedust_pool := none }

def c3wtx : JValue :=
  .obj (jobjL [("transaction_id", .obj (jobjL [("lt", .num 5), ("hash", .str "hbig")])),
               ("in_msg", .obj (jobjL [("value", .str "10000000000"), ("source", .str "UQb")]))])

def c3wdata : JValue := .obj (jobjL [("transactions", .arr (jarrL [c3wtx]))])

def c3winps : String → PollInput := fun _ => ⟨some c3wdata, fun _ => none⟩

def c3wev : BuyEvent :=
  { dex := "STONfi", token_symbol := "TKN", jetton_address := some "EQjet",
    ton_amount := some (ratDiv (((10000000000 : ℤ)) : ℚ) ((10 ^ 9 : ℤ) : ℚ)),
    usd_amount := none,
    jetton_amount := none, buyer_address := .str "UQb", tx_hash := .str "hbig" }

def c10cfg : GroupConfig :=
  { group_id := 1, enabled := true, approved := true, min_buy_ton := 5,
    token_symbol := some "TKN", jetton_address := some "EQjet",
    stonfi_pool := some "POOL", dedust_pool := none }

def c10tx : JValue :=
  .obj (jobjL [("transaction_id", .obj (jobjL [("lt", .num 5), ("hash", .str "habc")])),
               ("in_msg", .obj (jobjL [("value", .str "abc"), ("source", .str "UQb")]))])

def c10data : JValue := .obj (jobjL [("transactions", .arr (jarrL [c10tx]))])

def c4evA : BuyEvent :=
  { dex := "STONfi", token_symbol := "TKN", jetton_address := some "EQjet",
    ton_amount := some 1, usd_amount := none, jetton_amount := none,
    buyer_address := .str "UQb", tx_hash := .str "H" }

def c4evB : BuyEvent :=
  { dex := "DeDust", token_symbol := "TKN", jetton_address := some "EQjet",
    ton_amount := some 2, usd_amount := none, jetton_amount := none,
    buyer_address := .str "UQc", tx_hash := .str "H" }

def c4evC : BuyEvent :=
  { dex := "STONfi", token_symbol := "TKN", jetton_address := some "EQjet",
    ton_amount := some 1, usd_amount := none, jetton_amount := none,
    buyer_address := .str "UQb", tx_hash := .str "H2" }

def c4evNone : BuyEvent :=
  { dex := "STONfi", token_symbol := "TKN", jetton_address := some "EQjet",
    ton_amount := some 1, usd_amount := none, jetton_amount := none,
    buyer_address := .str "UQb", tx_hash := .null }

def c5resp : MetricsResp := ⟨none, some .null, some .null⟩

def c5cache0 : MetricsCache := ⟨20, []⟩

def c5cacheW : MetricsCache := ⟨20, [("K", (0, [("holders", .num 7)]))]⟩

def c2data : JValue := .obj (jobjL [("transactions", .arr (jarrL [mkTx 7 "h7"]))])

def c2cfg : GroupConfig :=
  { group_id := 1, enabled := true, approved := true, min_buy_ton := 0,
    token_symbol := some "TKN", jetton_address := some "EQjet",
    stonfi_pool := some "P1", dedust_pool := some "P2" }

def c2inps : String → PollInput :=
  fun p => if p = "P2" then ⟨some c2data, fun _ => none⟩ else ⟨none, fun _ => none⟩

def c6row (ts : ℤ) (sym : String) (usd : Option ℚ) : BuyRow :=
  { ts := ts, group_id := 1, dex := "STONfi", token_symbol := some sym,
    jetton_address := some "EQjet", pool_address := "POOL",
    buyer_address := .str "UQb", ton_amount := some 1, usd_amount := usd,
    jetton_amount := none, tx_hash := .str "h" }

def c6rows : List BuyRow :=
  [c6row 900 "A" (some 100), c6row 900 "A" (some 50), c6row 900 "B" (some 80),
   c6row 100 "A" (some 999)]

/-! ## Generic lemmas about the embedded code -/


theorem ebind_ok {α β : Type} (a : α) (f : α → Except PyErr β) :
    (Except.ok a >>= f) = f a := rfl

theorem ebind_err {α β : Type} (e : PyErr) (f : α → Except PyErr β) :
    ((Except.error e : Except PyErr α) >>= f) = .error e := rfl

theorem epure {α : Type} (a : α) : (pure a : Except PyErr α) = .ok a := rfl

theorem ratDiv_eq_div (a b : ℚ) : ratDiv a b = a / b := by
  rw [ratDiv, Rat.divInt_eq_div]
  rcases eq_or_ne b 0 with rfl | hb
  · simp
  · have hbd : ((b.den : ℚ)) ≠ 0 := by
      exact_mod_cast b.den_nz
    have had : ((a.den : ℚ)) ≠ 0 := by
      exact_mod_cast a.den_nz
    have hbn : (b.num : ℚ) ≠ 0 := by
      exact_mod_cast Rat.num_ne_zero.mpr hb
    have ha : (a.num : ℚ) = a * (a.den : ℚ) := (div_eq_iff had).mp (Rat.num_div_den a)
    have hb2 : (b.num : ℚ) = b * (b.den : ℚ) := (div_eq_iff hbd).mp (Rat.num_div_den b)
    push_cast
    field_simp
    rw [ha, hb2]
    ring

theorem procAll_newest (cfg : GroupConfig) (dex sym pool : String)
    (oracle : String → Option JValue) (now : ℤ) :
    ∀ (l : List (ℤ × JValue)) (n m : ℤ) (evs : List BuyEvent) (rows : List BuyRow),
      procAll cfg dex sym pool oracle now l n = .ok (m, evs, rows) →
      m = foldlMax n (l.map Prod.fst) := by
  intro l
  induction l with
  | nil =>
      intro n m evs rows h
      rw [procAll, epure] at h
      have h' := Except.ok.inj h
      simp only [Prod.mk.injEq] at h'
      exact h'.1.symm
  | cons p rest ih =>
      intro n m evs rows h
      obtain ⟨lt, tx⟩ := p
      rw [procAll] at h
      cases hp : processTx cfg dex sym pool oracle now tx with
      | error e => rw [hp, ebind_err] at h; exact absurd h (by simp)
      | ok r =>
          rw [hp, ebind_ok] at h
          cases hq : procAll cfg dex sym pool oracle now rest (max n lt) with
          | error e => rw [hq, ebind_err] at h; exact absurd h (by simp)
          | ok triple =>
              rw [hq, ebind_ok] at h
              obtain ⟨nf, evs', rows'⟩ := triple
              have hm : m = nf := by
                match r with
                | none =>
                    have h2 : (nf, evs', rows') = (m, evs, rows) := Except.ok.inj h
                    simp only [Prod.mk.injEq] at h2
                    exact h2.1.symm
                | some pr =>
                    obtain ⟨ev, row⟩ := pr
                    have h2 : (nf, ev :: evs', row :: rows') = (m, evs, rows) := Except.ok.inj h
                    simp only [Prod.mk.injEq] at h2
                    exact h2.1.symm
              rw [hm, ih (max n lt) nf evs' rows' hq]
              rfl

theorem procAll_events (cfg : GroupConfig) (dex sym pool : String)
    (oracle : String → Option JValue) (now : ℤ) :
    ∀ (l : List (ℤ × JValue)) (n m : ℤ) (evs : List BuyEvent) (rows : List BuyRow),
      procAll cfg dex sym pool oracle now l n = .ok (m, evs, rows) →
      ∀ ev ∈ evs, ∃ tx row, processTx cfg dex sym pool oracle now tx = .ok (some (ev, row)) := by
  intro l
  induction l with
  | nil =>
      intro n m evs rows h ev hev
      rw [procAll, epure] at h
      have h' := Except.ok.inj h
      simp only [Prod.mk.injEq] at h'
      rw [← h'.2.1] at hev
      cases hev
  | cons p rest ih =>
      intro n m evs rows h ev hev
      obtain ⟨lt, tx⟩ := p
      rw [procAll] at h
      cases hp : processTx cfg dex sym pool oracle now tx with
      | error e => rw [hp, ebind_err] at h; exact absurd h (by simp)
      | ok r =>
          rw [hp, ebind_ok] at h
          cases hq : procAll cfg dex sym pool oracle now rest (max n lt) with
          | error e => rw [hq, ebind_err] at h; exact absurd h (by simp)
          | ok triple =>
              rw [hq, ebind_ok] at h
              obtain ⟨nf, evs_, rows_⟩ := triple
              match r, hp with
              | none, hp =>
                  have h2 : (nf, evs_, rows_) = (m, evs, rows) := Except.ok.inj h
                  simp only [Prod.mk.injEq] at h2
                  rw [← h2.2.1] at hev
                  exact ih (max n lt) nf evs_ rows_ hq ev hev
              | some pr, hp =>
                  obtain ⟨ev0, row0⟩ := pr
                  have h2 : (nf, ev0 :: evs_, row0 :: rows_) = (m, evs, rows) := Except.ok.inj h
                  simp only [Prod.mk.injEq] at h2
                  rw [← h2.2.1] at hev
                  rcases List.mem_cons.mp hev with rfl | hmem
                  · exact ⟨tx, row0, hp⟩
                  · exact ih (max n lt) nf evs_ rows_ hq ev hmem

theorem le_foldlMax (n : ℤ) (l : List ℤ) : n ≤ foldlMax n l := by
  induction l generalizing n with
  | nil => exact le_refl n
  | cons x xs ih => exact (le_max_left n x).trans (ih (max n x))

theorem foldlMax_eq_or_mem (n : ℤ) (l : List ℤ) : foldlMax n l = n ∨ foldlMax n l ∈ l := by
  induction l generalizing n with
  | nil => exact Or.inl rfl
  | cons x xs ih =>
      rcases ih (max n x) with h | h
      · have hfx : foldlMax n (x :: xs) = max n x := h
        rcases max_cases n x with ⟨h1, _⟩ | ⟨h1, _⟩
        · exact Or.inl (hfx.trans h1)
        · exact Or.inr (by rw [hfx, h1]; exact List.mem_cons_self x xs)
      · exact Or.inr (List.mem_cons_of_mem x h)

theorem le_foldlMax_of_mem (x : ℤ) : ∀ (l : List ℤ) (n : ℤ), x ∈ l → x ≤ foldlMax n l := by
  intro l
  induction l with
  | nil => intro n h; cases h
  | cons y ys ih =>
      intro n h
      rcases List.mem_cons.mp h with rfl | hm
      · exact (le_max_right n x).trans (le_foldlMax (max n x) ys)
      · exact ih (max n y) hm

theorem newPairs_ok (data : JValue) (last : ℤ) (l : List (ℤ × JValue))
    (h : newPairs data last = .ok l) :
    ∃ txs, pageTxsE data = .ok txs ∧ l = txs.filterMap (keepNew last) := by
  rw [newPairs] at h
  cases hp : pageTxsE data with
  | error e => rw [hp, ebind_err] at h; exact absurd h (by simp)
  | ok txs =>
      rw [hp, ebind_ok, epure] at h
      exact ⟨txs, rfl, (Except.ok.inj h).symm⟩

theorem poll_pool_ok_commit (cfg : GroupConfig) (dex sym pool : String) (last : ℤ)
    (inp : PollInput) (now : ℤ) (o : PollOut) (w : ℤ)
    (h : poll_pool cfg dex sym pool last inp now = .ok o) (hw : o.commit = some w) :
    ∃ data new, inp.fetch = some data ∧ newPairs data last = .ok new ∧ new ≠ [] ∧
      w = foldlMax last
        ((List.insertionSort (fun x y : ℤ × JValue => x.1 ≤ y.1) new).map Prod.fst) := by
  cases hf : inp.fetch with
  | none =>
      simp only [poll_pool, hf] at h
      have ho := Except.ok.inj h
      rw [← ho] at hw
      simp at hw
  | some data =>
      simp only [poll_pool, hf] at h
      cases hn : newPairs data last with
      | error e => rw [hn, ebind_err] at h; exact absurd h (by simp)
      | ok new =>
          rw [hn, ebind_ok] at h
          cases new with
          | nil =>
              simp only [List.isEmpty_nil, if_true, epure] at h
              have ho := Except.ok.inj h
              rw [← ho] at hw
              simp at hw
          | cons p ps =>
              simp only [List.isEmpty_cons, Bool.false_eq_true, if_false] at h
              cases hq : procAll cfg dex sym pool inp.trace now
                  (List.insertionSort (fun x y : ℤ × JValue => x.1 ≤ y.1) (p :: ps)) last with
              | error e => rw [hq, ebind_err] at h; exact absurd h (by simp)
              | ok triple =>
                  rw [hq, ebind_ok, epure] at h
                  obtain ⟨newest, evs, rows⟩ := triple
                  have ho := Except.ok.inj h
                  rw [← ho] at hw
                  have hnw : newest = w := Option.some.inj hw
                  refine ⟨data, p :: ps, rfl, hn, by simp, ?_⟩
                  rw [← hnw]
                  exact procAll_newest cfg dex sym pool inp.trace now _ last newest evs rows hq

theorem keepNew_eq_some (last : ℤ) (tx : JValue) (p : ℤ × JValue)
    (h : keepNew last tx = some p) :
    parseLt tx ≠ 0 ∧ last < parseLt tx ∧ p = (parseLt tx, tx) := by
  rw [keepNew] at h
  by_cases hc : parseLt tx ≠ 0 ∧ parseLt tx > last
  · rw [if_pos hc] at h
    exact ⟨hc.1, hc.2, (Option.some.inj h).symm⟩
  · rw [if_neg hc] at h
    cases h

theorem keepNew_of_gt (last : ℤ) (tx : JValue) (hne : parseLt tx ≠ 0)
    (hgt : last < parseLt tx) : keepNew last tx = some (parseLt tx, tx) := by
  rw [keepNew, if_pos ⟨hne, hgt⟩]

theorem poll_pool_commit_ge (cfg : GroupConfig) (dex sym pool : String) (last : ℤ)
    (inp : PollInput) (now : ℤ) (o : PollOut) (w : ℤ)
    (h : poll_pool cfg dex sym pool last inp now = .ok o) (hw : o.commit = some w) :
    last ≤ w := by
  obtain ⟨data, new, hf, hn, hne, hfm⟩ := poll_pool_ok_commit cfg dex sym pool last inp now o w h hw
  rw [hfm]
  exact le_foldlMax last _

theorem applyCommit_ge (cs0 cs1 : String → ℤ) (pool : String) (r : Except PyErr PollOut)
    (hmono : ∀ q, cs0 q ≤ cs1 q)
    (hcommit : ∀ o w, r = .ok o → o.commit = some w → cs0 pool ≤ w) :
    ∀ q, cs0 q ≤ applyCommit cs1 pool r q := by
  intro q
  cases r with
  | error e => simp only [applyCommit]; exact hmono q
  | ok o =>
      cases hoc : o.commit with
      | none => simp only [applyCommit, hoc]; exact hmono q
      | some w =>
          simp only [applyCommit, hoc]
          by_cases hq : q = pool
          · rw [if_pos hq, hq]
            exact hcommit o w rfl hoc
          · rw [if_neg hq]
            exact hmono q

theorem poll_group_mono (cfg : GroupConfig) (inps : String → PollInput) (now : ℤ)
    (cs : String → ℤ) : ∀ q, cs q ≤ (poll_group cfg inps now cs).2 q := by
  intro q
  cases hen : cfg.enabled with
  | false => simp [poll_group, hen]
  | true =>
      have step1 : ∀ (p1 : String) (cs0 : String → ℤ) (dex : String),
          ∀ q, cs0 q ≤ applyCommit cs0 p1
            (poll_pool cfg dex (safe_symbol (pyOrStr cfg.token_symbol "TOKEN")) p1 (cs0 p1) (inps p1) now) q := by
        intro p1 cs0 dex q
        refine applyCommit_ge cs0 cs0 p1 _ (fun q => le_refl _) ?_ q
        intro o w ho hw
        exact poll_pool_commit_ge cfg dex _ p1 (cs0 p1) (inps p1) now o w ho hw
      cases ho1 : optPool cfg.stonfi_pool with
      | none =>
          cases ho2 : optPool cfg.dedust_pool with
          | none => simp [poll_group, hen, ho1, ho2]
          | some p2 =>
              simp only [poll_group, hen, ho1, ho2, Bool.not_true, if_false, Option.map_none,
                Option.map_some, Option.elim_none, Option.elim_some]
              exact step1 p2 cs "DeDust" q
      | some p1 =>
          cases ho2 : optPool cfg.dedust_pool with
          | none =>
              simp only [poll_group, hen, ho1, ho2, Bool.not_true, if_false, Option.map_none,
                Option.map_some, Option.elim_none, Option.elim_some]
              exact step1 p1 cs "STONfi" q
          | some p2 =>
              simp only [poll_group, hen, ho1, ho2, Bool.not_true, if_false, Option.map_none,
                Option.map_some, Option.elim_none, Option.elim_some]
              refine applyCommit_ge cs _ p2 _ (step1 p1 cs "STONfi") ?_ q
              intro o w ho hw
              exact poll_pool_commit_ge cfg "DeDust" _ p2 (cs p2) (inps p2) now o w ho hw

theorem tick_mono (cfgs : List GroupConfig) (inps : String → PollInput) (now : ℤ) :
    ∀ (cs : String → ℤ) (q : String), cs q ≤ (tick cfgs inps now cs).2 q := by
  induction cfgs with
  | nil => intro cs q; exact le_refl _
  | cons c rest ih =>
      intro cs q
      exact (poll_group_mono c inps now cs q).trans (ih (poll_group c inps now cs).2 q)

theorem runTicks_mono :
    ∀ (l : List (List GroupConfig × (String → PollInput) × ℤ)) (cs : String → ℤ) (q : String),
      cs q ≤ runTicks l cs q := by
  intro l
  induction l with
  | nil => intro cs q; exact le_refl _
  | cons t rest ih =>
      intro cs q
      exact (tick_mono t.1 t.2.1 t.2.2 cs q).trans (ih (tick t.1 t.2.1 t.2.2 cs).2 q)

theorem poll_pool_commit_max (cfg : GroupConfig) (dex sym pool : String) (last : ℤ)
    (inp : PollInput) (now : ℤ) (o : PollOut) (w : ℤ) (data : JValue)
    (hlast : 0 ≤ last) (hf : inp.fetch = some data)
    (h : poll_pool cfg dex sym pool last inp now = .ok o) (hw : o.commit = some w) :
    ∃ txs, pageTxsE data = .ok txs ∧
      w ∈ txs.map parseLt ∧ last < w ∧
      ∀ lt ∈ txs.map parseLt, last < lt → lt ≤ w := by
  obtain ⟨data', new, hf', hn, hne, hfm⟩ :=
    poll_pool_ok_commit cfg dex sym pool last inp now o w h hw
  rw [hf] at hf'
  obtain rfl : data = data' := Option.some.inj hf'
  obtain ⟨txs, hp, hl⟩ := newPairs_ok data last new hn
  refine ⟨txs, hp, ?_⟩
  have hperm : List.Perm ((List.insertionSort (fun x y : ℤ × JValue => x.1 ≤ y.1) new).map Prod.fst)
      (new.map Prod.fst) :=
    (List.perm_insertionSort (fun x y : ℤ × JValue => x.1 ≤ y.1) new).map Prod.fst
  have hmem : ∀ p ∈ new, parseLt p.2 = p.1 ∧ p.2 ∈ txs ∧ p.1 ≠ 0 ∧ last < p.1 := by
    intro p hp2
    rw [hl] at hp2
    rcases List.mem_filterMap.mp hp2 with ⟨tx, htx, hk⟩
    obtain ⟨h1, h2, h3⟩ := keepNew_eq_some last tx p hk
    rw [h3]
    exact ⟨rfl, htx, h1, h2⟩
  have hwmem : w ∈ txs.map parseLt ∧ last < w := by
    rcases foldlMax_eq_or_mem last
        ((List.insertionSort (fun x y : ℤ × JValue => x.1 ≤ y.1) new).map Prod.fst) with hc | hc
    · exfalso
      obtain ⟨p, ps, rfl⟩ := List.exists_cons_of_ne_nil hne
      have hin : p.1 ∈ (List.insertionSort (fun x y : ℤ × JValue => x.1 ≤ y.1) (p :: ps)).map Prod.fst :=
        hperm.symm.subset (List.mem_map_of_mem Prod.fst (List.mem_cons_self p ps))
      have hle := le_foldlMax_of_mem p.1 _ last hin
      rw [hc] at hle
      exact absurd hle (not_le.mpr (hmem p (List.mem_cons_self p ps)).2.2.2)
    · rw [← hfm] at hc
      have hinnew : w ∈ new.map Prod.fst := hperm.subset hc
      rcases List.mem_map.mp hinnew with ⟨p, hpn, hpw⟩
      obtain ⟨he1, he2, _, he4⟩ := hmem p hpn
      constructor
      · exact List.mem_map.mpr ⟨p.2, he2, by rw [he1, hpw]⟩
      · rw [← hpw]
        exact he4
  refine ⟨hwmem.1, hwmem.2, ?_⟩
  intro lt hlt hgt
  rcases List.mem_map.mp hlt with ⟨tx, htx, hptx⟩
  have hne0 : parseLt tx ≠ 0 := by
    rw [hptx]
    exact (hlast.trans_lt hgt).ne'
  have hk : keepNew last tx = some (parseLt tx, tx) := keepNew_of_gt last tx hne0 (by rw [hptx]; exact hgt)
  have hinnew : (parseLt tx, tx) ∈ new := by
    rw [hl]
    exact List.mem_filterMap.mpr ⟨tx, htx, hk⟩
  have hin : parseLt tx ∈ (List.insertionSort (fun x y : ℤ × JValue => x.1 ≤ y.1) new).map Prod.fst :=
    hperm.symm.subset (List.mem_map_of_mem Prod.fst hinnew)
  have := le_foldlMax_of_mem (parseLt tx) _ last hin
  rw [hptx] at this
  rw [hfm]
  exact this

/-- C1: for every pool, the cursor watermark stored by the Poller is
monotonically non-decreasing across poll ticks, and whenever a tick
commits a new watermark it equals the maximum logical time among the
transactions returned by that tick's successful fetch whose logical time
strictly exceeds the previous watermark — whether or not every such
transaction produced a deliverable event (the maximum runs over all new
transactions, filtered or not). -/
theorem C1_cursor_monotone_and_commit_max :
    (∀ (l : List (List GroupConfig × (String → PollInput) × ℤ)) (cs : String → ℤ)
        (q : String), cs q ≤ runTicks l cs q) ∧
    (∀ (cfg : GroupConfig) (dex sym pool : String) (last : ℤ) (inp : PollInput)
        (now : ℤ) (o : PollOut) (w : ℤ) (data : JValue),
      0 ≤ last → inp.fetch = some data →
      poll_pool cfg dex sym pool last inp now = .ok o → o.commit = some w →
      ∃ txs, pageTxsE data = .ok txs ∧
        w ∈ txs.map parseLt ∧ last < w ∧
        ∀ lt ∈ txs.map parseLt, last < lt → lt ≤ w) :=
  ⟨runTicks_mono,
   fun cfg dex sym pool last inp now o w data h1 h2 h3 h4 =>
     poll_pool_commit_max cfg dex sym pool last inp now o w data h1 h2 h3 h4⟩

theorem C1_cursor_monotone_and_commit_max_witness :
    0 ≤ (3 : ℤ) ∧ c1inp.fetch = some c1data ∧
    (∃ txs, pageTxsE c1data = .ok txs ∧
      (7 : ℤ) ∈ txs.map parseLt ∧ (3 : ℤ) < 7 ∧
      ∀ lt ∈ txs.map parseLt, (3 : ℤ) < lt → lt ≤ 7) :=
  ⟨by decide, rfl,
   C1_cursor_monotone_and_commit_max.2 c1cfg "STONfi" "TKN" "POOL" 3 c1inp 1000
     c1out 7 c1data (by decide) rfl rfl rfl⟩


/-- C9: with fetched logical times `[5, 3, 9, 1]` and cursor `3`, one poll
processes exactly the transactions with logical times 5 and 9, in that
ascending order, excludes 3 and 1, and commits the cursor at 9. -/
theorem C9_poll_order_and_commit :
    ∃ o, poll_pool c9cfg "STONfi" "TKN" "POOL" 3 ⟨some c9data, fun _ => none⟩ 1000 = .ok o ∧
      o.events.map (fun e => e.tx_hash) = [.str "h5", .str "h9"] ∧
      o.buys.map (fun b => b.tx_hash) = [.str "h5", .str "h9"] ∧
      o.commit = some 9 :=
  ⟨_, rfl, rfl, rfl, rfl⟩

/-- C8: a raw jetton figure strictly above `1e12` is divided by `1e9`
before being stored, otherwise kept unchanged; in particular `5e12` yields
`5000` (also end-to-end through the trace block) and `500` stays `500`. -/
theorem C8_jetton_scale_heuristic :
    scaleRawJetton (5 * 10 ^ 12) = 5000 ∧
    scaleRawJetton 500 = 500 ∧
    (∀ r : ℚ, 10 ^ 12 < r → scaleRawJetton r = r / 10 ^ 9) ∧
    (∀ r : ℚ, r ≤ 10 ^ 12 → scaleRawJetton r = r) ∧
    traceBlockE (fun _ => some c8trace) (some "EQjet") "t1" = .ok (none, some 5000) := by
  have hc : ((10 ^ 12 : ℤ) : ℚ) = 10 ^ 12 := by norm_num
  have hmain : ∀ r : ℚ, 10 ^ 12 < r → scaleRawJetton r = r / 10 ^ 9 := by
    intro r h
    have h' : ((10 ^ 12 : ℤ) : ℚ) < r := by rw [hc]; exact h
    rw [scaleRawJetton, if_pos h', ratDiv_eq_div]
    norm_num
  have hid : ∀ r : ℚ, r ≤ 10 ^ 12 → scaleRawJetton r = r := by
    intro r h
    have h' : ¬ ((10 ^ 12 : ℤ) : ℚ) < r := by rw [hc]; exact not_lt.mpr h
    rw [scaleRawJetton, if_neg h']
  refine ⟨?_, hid 500 (by norm_num), hmain, hid, ?_⟩
  · rw [hmain (5 * 10 ^ 12) (by norm_num)]
    norm_num
  · have h : traceBlockE (fun _ => some c8trace) (some "EQjet") "t1" =
        .ok (none, some (scaleRawJetton 5000000000000)) := rfl
    rw [h, hmain 5000000000000 (by norm_num)]
    norm_num

theorem C8_jetton_scale_heuristic_witness :
    ((10 : ℚ) ^ 12 < 2 * 10 ^ 12 ∧ scaleRawJetton (2 * 10 ^ 12) = 2 * 10 ^ 12 / 10 ^ 9) ∧
    ((500 : ℚ) ≤ 10 ^ 12 ∧ scaleRawJetton 500 = 500) :=
  ⟨⟨by norm_num, C8_jetton_scale_heuristic.2.2.1 (2 * 10 ^ 12) (by norm_num)⟩,
   ⟨by norm_num, C8_jetton_scale_heuristic.2.2.2.1 500 (by norm_num)⟩⟩

theorem guardedMaxE_ok (l : List ℚ) : ∃ v, guardedMaxE l = .ok v := by
  cases l with
  | nil => exact ⟨none, rfl⟩
  | cons h t => exact ⟨some (t.foldl max h), rfl⟩

theorem extractFinish_ok (st : Option JValue × Option String) (nr : Except PyErr (Option ℚ))
    (h : ∃ v, nr = .ok v) : ∃ r, extractFinish st nr = .ok r := by
  obtain ⟨v, rfl⟩ := h
  obtain ⟨s1, s2⟩ := st
  cases v with
  | some m => exact ⟨_, rfl⟩
  | none =>
      cases s1 with
      | none => exact ⟨_, rfl⟩
      | some raw =>
          simp only [extractFinish]
          cases hf : pyFloatE raw with
          | ok q => exact ⟨_, rfl⟩
          | error e => exact ⟨_, rfl⟩

theorem extractE_ok (trace : JValue) (ja : Option String) :
    ∃ r, _extract_jetton_transferE trace ja = .ok r := by
  rw [_extract_jetton_transferE]
  by_cases ht : (!trace.truthy) = true
  · rw [if_pos ht]
    exact ⟨(none, none), rfl⟩
  · rw [if_neg ht]
    exact extractFinish_ok _ _
      (guardedMaxE_ok (_find_numbers trace ["jetton_amount", "jettonamount", "amount"]))

theorem traceParse_ok (trace : JValue) (ja : Option String) :
    ∃ p, traceParse trace ja = .ok p := by
  rw [traceParse]
  obtain ⟨r, hr⟩ := extractE_ok trace ja
  rw [hr]
  obtain ⟨v, hv⟩ := guardedMaxE_ok (_find_numbers trace ["value_usd", "amount_usd", "usd"])
  rw [hv]
  exact ⟨_, rfl⟩

theorem traceBlockE_ok (ja : Option String) (tid : String) (trace : JValue) :
    ∃ p, traceBlockE (fun _ => some trace) ja tid = .ok p :=
  traceParse_ok trace ja

/-- C7: the event-extraction heuristic terminates without raising on every
input: `_extract_jetton_transfer` and the trace block always return `ok`,
and a parse failure (non-numeric amount string) degrades to unknown
fields, not to an error. -/
theorem C7_extraction_never_raises :
    (∀ (trace : JValue) (ja : Option String), ∃ r, _extract_jetton_transferE trace ja = .ok r) ∧
    (∀ (ja : Option String) (tid : String) (trace : JValue),
      ∃ p, traceBlockE (fun _ => some trace) ja tid = .ok p) ∧
    _extract_jetton_transferE (.obj (jobjL [("amount", .str "xyz")])) none = .ok (none, none) :=
  ⟨extractE_ok, traceBlockE_ok, rfl⟩

theorem processTx_ok_shape (cfg : GroupConfig) (dex sym pool : String)
    (oracle : String → Option JValue) (now : ℤ) (tx : JValue)
    (r : Option (BuyEvent × BuyRow))
    (h : processTx cfg dex sym pool oracle now tx = .ok r) :
    ∃ ta, txTonAmountE tx = .ok ta ∧
      ((∃ ev row, r = some (ev, row) ∧ ev.ton_amount = ta ∧ row.ton_amount = ta ∧
          (cfg.min_buy_ton ≠ 0 → ∀ a, ta = some a → ¬ a < cfg.min_buy_ton)) ∨
       (r = none ∧ cfg.min_buy_ton ≠ 0 ∧ ∃ a, ta = some a ∧ a < cfg.min_buy_ton)) := by
  rw [processTx] at h
  cases h1 : pyGet tx "in_msg" with
  | error e => rw [h1] at h; simp at h
  | ok inMsgRaw =>
  rw [h1] at h
  simp only [] at h
  cases h2 : pyGet (pyOr inMsgRaw (.obj .onil)) "value" with
  | error e => rw [h2] at h; simp at h
  | ok value =>
  rw [h2] at h
  simp only [] at h
  refine ⟨nano_to_ton value, ?_, ?_⟩
  · rw [txTonAmountE, h1, ebind_ok, h2, ebind_ok]
    rfl
  cases h3 : pyGetD tx "transaction_id" (.obj .onil) with
  | error e => rw [h3] at h; simp at h
  | ok t1 =>
  rw [h3] at h
  simp only [] at h
  cases h4 : pyGet t1 "hash" with
  | error e => rw [h4] at h; simp at h
  | ok hh1 =>
  rw [h4] at h
  simp only [] at h
  cases h5 : pyGet tx "hash" with
  | error e => rw [h5] at h; simp at h
  | ok hh2 =>
  rw [h5] at h
  simp only [] at h
  cases h6 : pyGet (pyOr inMsgRaw (.obj .onil)) "source" with
  | error e => rw [h6] at h; simp at h
  | ok s1 =>
  rw [h6] at h
  cases h7 : pyGet (pyOr inMsgRaw (.obj .onil)) "src" with
  | error e => rw [h7] at h; simp at h
  | ok s2 =>
  rw [h7] at h
  cases h8 : pyGet (pyOr inMsgRaw (.obj .onil)) "from" with
  | error e => rw [h8] at h; simp at h
  | ok s3 =>
  rw [h8] at h
  simp only [] at h
  split at h
  case isTrue hc =>
      have hr : (none : Option (BuyEvent × BuyRow)) = r := Except.ok.inj h
      rw [Bool.and_eq_true] at hc
      have hmin : cfg.min_buy_ton ≠ 0 := of_decide_eq_true hc.1
      right
      refine ⟨hr.symm, hmin, ?_⟩
      cases hta : nano_to_ton value with
      | none => rw [hta] at hc; exact absurd hc.2 (by simp)
      | some a =>
          rw [hta] at hc
          exact ⟨a, rfl, of_decide_eq_true hc.2⟩
  case isFalse hc =>
      have hr := Except.ok.inj h
      left
      refine ⟨_, _, hr.symm, rfl, rfl, ?_⟩
      intro hmin a hta hlt
      apply hc
      rw [Bool.and_eq_true, hta]
      exact ⟨decide_eq_true hmin, decide_eq_true hlt⟩

theorem eventsOf_mem (r : Except PyErr PollOut) (ev : BuyEvent) (h : ev ∈ eventsOf r) :
    ∃ o, r = .ok o ∧ ev ∈ o.events := by
  cases r with
  | error e => cases h
  | ok o => exact ⟨o, rfl, h⟩

theorem poll_pool_events (cfg : GroupConfig) (dex sym pool : String) (last : ℤ)
    (inp : PollInput) (now : ℤ) (o : PollOut)
    (h : poll_pool cfg dex sym pool last inp now = .ok o) :
    ∀ ev ∈ o.events, ∃ tx row,
      processTx cfg dex sym pool inp.trace now tx = .ok (some (ev, row)) := by
  intro ev hev
  cases hf : inp.fetch with
  | none =>
      simp only [poll_pool, hf] at h
      rw [← Except.ok.inj h] at hev
      cases hev
  | some data =>
      simp only [poll_pool, hf] at h
      cases hn : newPairs data last with
      | error e => rw [hn, ebind_err] at h; exact absurd h (by simp)
      | ok new =>
          rw [hn, ebind_ok] at h
          cases new with
          | nil =>
              simp only [List.isEmpty_nil, if_true, epure] at h
              rw [← Except.ok.inj h] at hev
              cases hev
          | cons p ps =>
              simp only [List.isEmpty_cons, Bool.false_eq_true, if_false] at h
              cases hq : procAll cfg dex sym pool inp.trace now
                  (List.insertionSort (fun x y : ℤ × JValue => x.1 ≤ y.1) (p :: ps)) last with
              | error e => rw [hq, ebind_err] at h; exact absurd h (by simp)
              | ok triple =>
                  rw [hq, ebind_ok, epure] at h
                  obtain ⟨newest, evs, rows⟩ := triple
                  rw [← Except.ok.inj h] at hev
                  exact procAll_events cfg dex sym pool inp.trace now _ last newest evs rows hq ev hev

theorem poll_group_events (cfg : GroupConfig) (inps : String → PollInput) (now : ℤ)
    (cs : String → ℤ) (ev : BuyEvent) (h : ev ∈ (poll_group cfg inps now cs).1) :
    ∃ dex pool tx row,
      processTx cfg dex (safe_symbol (pyOrStr cfg.token_symbol "TOKEN")) pool
        ((inps pool).trace) now tx = .ok (some (ev, row)) := by
  cases hen : cfg.enabled with
  | false => simp [poll_group, hen] at h
  | true =>
      cases ho1 : optPool cfg.stonfi_pool with
      | none =>
          cases ho2 : optPool cfg.dedust_pool with
          | none => simp [poll_group, hen, ho1, ho2] at h
          | some p2 =>
              simp [poll_group, hen, ho1, ho2] at h
              obtain ⟨o, ho, hoev⟩ := eventsOf_mem _ ev h
              obtain ⟨tx, row, hp⟩ := poll_pool_events cfg "DeDust" _ p2 (cs p2) (inps p2) now o ho ev hoev
              exact ⟨"DeDust", p2, tx, row, hp⟩
      | some p1 =>
          cases ho2 : optPool cfg.dedust_pool with
          | none =>
              simp [poll_group, hen, ho1, ho2] at h
              obtain ⟨o, ho, hoev⟩ := eventsOf_mem _ ev h
              obtain ⟨tx, row, hp⟩ := poll_pool_events cfg "STONfi" _ p1 (cs p1) (inps p1) now o ho ev hoev
              exact ⟨"STONfi", p1, tx, row, hp⟩
          | some p2 =>
              simp [poll_group, hen, ho1, ho2] at h
              rcases h with hm | hm
              · obtain ⟨o, ho, hoev⟩ := eventsOf_mem _ ev hm
                obtain ⟨tx, row, hp⟩ := poll_pool_events cfg "STONfi" _ p1 (cs p1) (inps p1) now o ho ev hoev
                exact ⟨"STONfi", p1, tx, row, hp⟩
              · obtain ⟨o, ho, hoev⟩ := eventsOf_mem _ ev hm
                obtain ⟨tx, row, hp⟩ := poll_pool_events cfg "DeDust" _ p2 (cs p2) (inps p2) now o ho ev hoev
                exact ⟨"DeDust", p2, tx, row, hp⟩

/-- C3: counterexample to the claim that events below the minimum-buy
threshold are always skipped: with `min_buy_ton = 0` the guard
`cfg.min_buy_ton and ...` is falsy, so a transaction whose parsed TON
amount is negative (hence below the threshold) is still emitted. -/
theorem C3_minbuy_counterexample :
    c3cfg.min_buy_ton = 0 ∧
    ∃ o ev a, poll_pool c3cfg "STONfi" "TKN" "POOL" 3 ⟨some c3data, fun _ => none⟩ 1000 = .ok o ∧
      o.events = [ev] ∧ ev.ton_amount = some a ∧ a < c3cfg.min_buy_ton := by
  refine ⟨rfl, _, _, ratDiv (((-1000000000 : ℤ)) : ℚ) ((10 ^ 9 : ℤ) : ℚ), rfl, rfl, rfl, ?_⟩
  show ratDiv (((-1000000000 : ℤ)) : ℚ) ((10 ^ 9 : ℤ) : ℚ) < 0
  rw [ratDiv_eq_div]
  norm_num

/-- C3 (amended): whenever the configured minimum-buy threshold is nonzero,
every emitted event with a parsed TON amount is at or above the threshold;
and a committed cursor bounds every newly-seen logical time. -/
theorem C3_minbuy_filter_amended :
    (∀ (cfg : GroupConfig) (inps : String → PollInput) (now : ℤ) (cs : String → ℤ),
      cfg.min_buy_ton ≠ 0 →
      ∀ ev ∈ (poll_group cfg inps now cs).1, ∀ a, ev.ton_amount = some a →
        cfg.min_buy_ton ≤ a) ∧
    (∀ (cfg : GroupConfig) (dex sym pool : String) (last : ℤ) (inp : PollInput) (now : ℤ)
        (o : PollOut) (w : ℤ) (data : JValue),
      0 ≤ last → inp.fetch = some data →
      poll_pool cfg dex sym pool last inp now = .ok o → o.commit = some w →
      ∃ txs, pageTxsE data = .ok txs ∧ ∀ lt ∈ txs.map parseLt, last < lt → lt ≤ w) := by
  constructor
  · intro cfg inps now cs hmin ev hev a hta
    obtain ⟨dex, pool, tx, row, hp⟩ := poll_group_events cfg inps now cs ev hev
    obtain ⟨ta, _, hshape⟩ := processTx_ok_shape cfg dex _ pool ((inps pool).trace) now tx _ hp
    rcases hshape with ⟨ev', row', heq, hton, _, hfil⟩ | ⟨heq, _, _⟩
    · obtain ⟨rfl, rfl⟩ : ev' = ev ∧ row' = row := by
        have h2 := Option.some.inj heq
        exact ⟨(congrArg Prod.fst h2).symm, (congrArg Prod.snd h2).symm⟩
      rw [hta] at hton
      exact not_lt.mp (hfil hmin a hton.symm)
    · cases heq
  · intro cfg dex sym pool last inp now o w data h1 h2 h3 h4
    obtain ⟨txs, hp, _, _, hmax⟩ := poll_pool_commit_max cfg dex sym pool last inp now o w data h1 h2 h3 h4
    exact ⟨txs, hp, hmax⟩

theorem C3_minbuy_filter_amended_witness :
    c3wcfg.min_buy_ton ≠ 0 ∧ c3wev ∈ (poll_group c3wcfg c3winps 1000 (fun _ => 3)).1 ∧
    c3wev.ton_amount = some (ratDiv (((10000000000 : ℤ)) : ℚ) ((10 ^ 9 : ℤ) : ℚ)) ∧
    c3wcfg.min_buy_ton ≤ ratDiv (((10000000000 : ℤ)) : ℚ) ((10 ^ 9 : ℤ) : ℚ) := by
  have hmin : c3wcfg.min_buy_ton ≠ 0 := by norm_num [c3wcfg]
  have hlist : (poll_group c3wcfg c3winps 1000 (fun _ => 3)).1 = [c3wev] := rfl
  have hmem : c3wev ∈ (poll_group c3wcfg c3winps 1000 (fun _ => 3)).1 := by
    rw [hlist]; exact List.mem_cons_self _ _
  exact ⟨hmin, hmem, rfl,
    C3_minbuy_filter_amended.1 c3wcfg c3winps 1000 (fun _ => 3) hmin c3wev hmem
      (ratDiv (((10000000000 : ℤ)) : ℚ) ((10 ^ 9 : ℤ) : ℚ)) rfl⟩

/-- C10: with a strictly positive minimum-buy threshold, a transaction
whose incoming-message value does not parse (TON amount unknown) is never
discarded by the minimum-buy filter: the event is emitted and a buy row is
persisted, both with an unknown native amount; concretely, a transaction
with value string "abc" under threshold 5 is emitted and committed. -/
theorem C10_unparseable_value_not_filtered :
    (∀ (cfg : GroupConfig) (dex sym pool : String) (oracle : String → Option JValue)
        (now : ℤ) (tx : JValue) (r : Option (BuyEvent × BuyRow)),
      0 < cfg.min_buy_ton →
      txTonAmountE tx = .ok none →
      processTx cfg dex sym pool oracle now tx = .ok r →
      ∃ ev row, r = some (ev, row) ∧ ev.ton_amount = none ∧ row.ton_amount = none) ∧
    (∃ o ev row,
      poll_pool c10cfg "STONfi" "TKN" "POOL" 3 ⟨some c10data, fun _ => none⟩ 1000 = .ok o ∧
      o.events = [ev] ∧ o.buys = [row] ∧ ev.ton_amount = none ∧ row.ton_amount = none ∧
      o.commit = some 5) := by
  constructor
  · intro cfg dex sym pool oracle now tx r hpos hta h
    obtain ⟨ta, hta2, hshape⟩ := processTx_ok_shape cfg dex sym pool oracle now tx r h
    rw [hta2] at hta
    have htae : ta = none := Except.ok.inj hta
    rcases hshape with ⟨ev, row, hr, hton, hrow, _⟩ | ⟨_, _, a, hsome, _⟩
    · exact ⟨ev, row, hr, by rw [hton, htae], by rw [hrow, htae]⟩
    · rw [htae] at hsome; cases hsome
  · exact ⟨_, _, _, rfl, rfl, rfl, rfl, rfl, rfl⟩

theorem C10_unparseable_value_not_filtered_witness :
    (0 : ℚ) < c10cfg.min_buy_ton ∧ txTonAmountE c10tx = .ok none ∧
    ∃ r, processTx c10cfg "STONfi" "TKN" "POOL" (fun _ => none) 1000 c10tx = .ok r ∧
      ∃ ev row, r = some (ev, row) ∧ ev.ton_amount = none ∧ row.ton_amount = none := by
  have hpos : (0 : ℚ) < c10cfg.min_buy_ton := by norm_num [c10cfg]
  exact ⟨hpos, rfl, _, rfl,
    C10_unparseable_value_not_filtered.1 c10cfg "STONfi" "TKN" "POOL" (fun _ => none)
      1000 c10tx _ hpos rfl rfl⟩

/-- C4: deduplication by transaction hash at the shared channel works (two
same-hash events yield one post, two different-hash events yield two), but
an event without a hash never reaches the claimed structural composite
fingerprint: the fingerprint expression reads `ev.pool_address` and
`ev.ts`, attributes the `BuyEvent` dataclass does not define, so the
fingerprint computation raises `AttributeError` and aborts the tick's
channel posting. -/
theorem C4_channel_fingerprint_bug :
    (∀ ev : BuyEvent, ev.tx_hash = .null → channelKeyE ev = .error .attributeError) ∧
    (∀ (now : ℤ) (st : List (JValue × ℤ)) (rest : List BuyEvent),
      postEventsE now (c4evNone :: rest) st = .error .attributeError) ∧
    postEventsE 0 [c4evA, c4evB] [] = .ok ([c4evA], [(.str "H", 0)]) ∧
    postEventsE 0 [c4evA, c4evC] [] =
      .ok ([c4evA, c4evC], [(.str "H", 0), (.str "H2", 0)]) := by
  refine ⟨?_, ?_, rfl, rfl⟩
  · intro ev h
    rw [channelKeyE, h]
    rfl
  · intro now st rest
    have hk : channelKeyE c4evNone = .error .attributeError := rfl
    rw [postEventsE, hk, ebind_err]

theorem C4_channel_fingerprint_bug_witness :
    c4evNone.tx_hash = .null ∧ channelKeyE c4evNone = .error .attributeError :=
  ⟨rfl, C4_channel_fingerprint_bug.1 c4evNone rfl⟩

/-- C5: counterexample to "a partial or empty snapshot is served from the
cache within the TTL": `if cached:` treats a cached empty snapshot as a
miss, so a second lookup well inside the TTL of a prior fetch that cached
the empty snapshot still issues 3 outbound calls. -/
theorem C5_empty_snapshot_counterexample :
    ∃ c1, fetch_token_metrics "K" 0 c5cache0 c5resp = ⟨[], 3, c1⟩ ∧
      c1.get "K" 10 = some [] ∧
      (fetch_token_metrics "K" 10 c1 c5resp).calls = 3 := by
  exact ⟨_, rfl, rfl, rfl⟩

/-- C5 (amended): a lookup within the TTL of a cached non-empty snapshot
issues zero outbound calls and returns the identical snapshot with the
cache untouched; a lookup with no live cache entry (absent or expired)
issues at least two outbound calls. -/
theorem C5_ttl_cache_amended :
    (∀ (c : MetricsCache) (key : String) (now : ℤ) (resp : MetricsResp) (snap : Snapshot),
      c.get key now = some snap → snap.isEmpty = false →
      fetch_token_metrics key now c resp = ⟨snap, 0, c⟩) ∧
    (∀ (c : MetricsCache) (key : String) (now : ℤ) (resp : MetricsResp),
      c.get key now = none →
      2 ≤ (fetch_token_metrics key now c resp).calls) := by
  constructor
  · intro c key now resp snap hget hne
    simp only [fetch_token_metrics, hget, hne, Bool.false_eq_true, if_false]
  · intro c key now resp hget
    simp only [fetch_token_metrics, hget]
    exact Nat.le_add_right 2 _

theorem C5_ttl_cache_amended_witness :
    (c5cacheW.get "K" 10 = some [("holders", .num 7)] ∧
      ([("holders", JValue.num 7)] : Snapshot).isEmpty = false ∧
      fetch_token_metrics "K" 10 c5cacheW c5resp = ⟨[("holders", .num 7)], 0, c5cacheW⟩) ∧
    (c5cacheW.get "K" 100 = none ∧
      2 ≤ (fetch_token_metrics "K" 100 c5cacheW c5resp).calls) :=
  ⟨⟨rfl, rfl, C5_ttl_cache_amended.1 c5cacheW "K" 10 c5resp [("holders", .num 7)] rfl rfl⟩,
   ⟨rfl, C5_ttl_cache_amended.2 c5cacheW "K" 100 c5resp rfl⟩⟩

/-- The group filter composed with the window filter equals the one-pass
filter used by the specification-side sums. -/
theorem lb_filter_window_key (rows : List BuyRow) (now w : ℤ) (k : String) :
    List.filter (fun r => lbKey r == k) (List.filter (fun r => decide (now - w ≤ r.ts)) rows)
      = List.filter (fun r => decide (now - w ≤ r.ts) && (lbKey r == k)) rows := by
  rw [List.filter_filter]
  exact List.filter_congr (fun a _ => Bool.and_comm _ _)

/-- C6: the leaderboard keeps at most 15 groups, is ordered descending by
summed USD volume with ties broken descending by buy count, and each
entry's volume and count equal the windowed per-key sum (unknown USD as
zero) and row count; concretely, in-window buys of 100 and 50 for A and
80 for B with an out-of-window 999 for A yield A (150, 2) then B (80, 1). -/
theorem C6_leaderboard_aggregation :
    (∀ (rows : List BuyRow) (now w : ℤ),
      (update_once_items rows now w).length ≤ 15) ∧
    (∀ (rows : List BuyRow) (now w : ℤ),
      (update_once_items rows now w).Pairwise lbOrd) ∧
    (∀ (rows : List BuyRow) (now w : ℤ), ∀ e ∈ update_once_items rows now w,
      e.vol_usd = lbVolumeSpec rows now w e.key ∧
      e.buys = lbCountSpec rows now w e.key) ∧
    update_once_items c6rows 1000 600 = [⟨"A", 150, 2⟩, ⟨"B", 80, 1⟩] := by
  refine ⟨?_, ?_, ?_, ?_⟩
  · intro rows now w
    calc (update_once_items rows now w).length
        = min 15 (List.insertionSort lbOrd _).length := List.length_take 15 _
      _ ≤ 15 := min_le_left _ _
  · intro rows now w
    exact ((List.sorted_insertionSort lbOrd _).sublist (List.take_sublist 15 _))
  · intro rows now w e he
    simp only [update_once_items, get_recent_leaderboard] at he
    have he2 := List.mem_of_mem_take he
    have he3 := (List.perm_insertionSort lbOrd _).mem_iff.mp he2
    obtain ⟨k, hk, hfk⟩ := List.mem_map.mp he3
    subst hfk
    constructor
    · show _ = lbVolumeSpec rows now w k
      rw [lbVolumeSpec, ← lb_filter_window_key]
    · show _ = lbCountSpec rows now w k
      rw [lbCountSpec, ← lb_filter_window_key]
  · have h1 : update_once_items c6rows 1000 600 =
        (List.insertionSort lbOrd
          [⟨"A", (100 : ℚ) + (50 + 0), 2⟩, ⟨"B", (80 : ℚ) + 0, 1⟩]).take 15 := rfl
    have hA : (100 : ℚ) + (50 + 0) = 150 := by norm_num
    have hB : (80 : ℚ) + 0 = 80 := by norm_num
    rw [h1, hA, hB]
    rfl

theorem C6_leaderboard_aggregation_witness :
    (⟨"A", 150, 2⟩ : LBEntry) ∈ update_once_items c6rows 1000 600 ∧
    (150 : ℚ) = lbVolumeSpec c6rows 1000 600 "A" ∧
    (2 : ℕ) = lbCountSpec c6rows 1000 600 "A" := by
  have h1 : update_once_items c6rows 1000 600 =
      (List.insertionSort lbOrd
        [⟨"A", (100 : ℚ) + (50 + 0), 2⟩, ⟨"B", (80 : ℚ) + 0, 1⟩]).take 15 := rfl
  have hA : (100 : ℚ) + (50 + 0) = 150 := by norm_num
  have hB : (80 : ℚ) + 0 = 80 := by norm_num
  have hmem : (⟨"A", 150, 2⟩ : LBEntry) ∈ update_once_items c6rows 1000 600 := by
    rw [h1, hA, hB]
    exact List.mem_cons_self _ _
  have := C6_leaderboard_aggregation.2.2.1 c6rows 1000 600 ⟨"A", 150, 2⟩ hmem
  exact ⟨hmem, this.1, this.2⟩

theorem applyCommit_preserve (cs : String → ℤ) (pool : String) (r : Except PyErr PollOut)
    (p : String) (h : p ≠ pool ∨ r = .ok ⟨[], [], none⟩) : applyCommit cs pool r p = cs p := by
  rcases h with h | rfl
  · cases r with
    | error e => rfl
    | ok o =>
        cases hc : o.commit with
        | none => simp [applyCommit, hc]
        | some w => simp [applyCommit, hc, h]
  · rfl

theorem poll_pool_fetch_none (cfg : GroupConfig) (dex sym pool : String) (last : ℤ)
    (inp : PollInput) (now : ℤ) (h : inp.fetch = none) :
    poll_pool cfg dex sym pool last inp now = .ok ⟨[], [], none⟩ := by
  simp only [poll_pool, h]

theorem poll_group_preserve (cfg : GroupConfig) (inps : String → PollInput) (now : ℤ)
    (cs : String → ℤ) (p : String) (h : (inps p).fetch = none) :
    (poll_group cfg inps now cs).2 p = cs p := by
  cases hen : cfg.enabled with
  | false => simp [poll_group, hen]
  | true =>
      have step : ∀ (cs' : String → ℤ) (dex : String) (q : String),
          applyCommit cs' q
            (poll_pool cfg dex (safe_symbol (pyOrStr cfg.token_symbol "TOKEN")) q (cs q)
              (inps q) now) p = cs' p := by
        intro cs' dex q
        by_cases hq : p = q
        · subst hq
          exact applyCommit_preserve cs' p _ p
            (Or.inr (poll_pool_fetch_none cfg dex _ p (cs p) (inps p) now h))
        · exact applyCommit_preserve cs' q _ p (Or.inl hq)
      cases ho1 : optPool cfg.stonfi_pool with
      | none =>
          cases ho2 : optPool cfg.dedust_pool with
          | none => simp [poll_group, hen, ho1, ho2]
          | some p2 =>
              simp [poll_group, hen, ho1, ho2]
              exact step cs "DeDust" p2
      | some p1 =>
          cases ho2 : optPool cfg.dedust_pool with
          | none =>
              simp [poll_group, hen, ho1, ho2]
              exact step cs "STONfi" p1
          | some p2 =>
              simp [poll_group, hen, ho1, ho2]
              rw [step _ "DeDust" p2, step cs "STONfi" p1]

theorem tick_preserve (cfgs : List GroupConfig) (inps : String → PollInput) (now : ℤ)
    (cs : String → ℤ) (p : String) (h : (inps p).fetch = none) :
    (tick cfgs inps now cs).2 p = cs p := by
  induction cfgs generalizing cs with
  | nil => rfl
  | cons c rest ih =>
      show (tick (c :: rest) inps now cs).2 p = cs p
      simp only [tick]
      rw [ih]
      exact poll_group_preserve c inps now cs p h

theorem tick_length (cfgs : List GroupConfig) (inps : String → PollInput) (now : ℤ)
    (cs : String → ℤ) : (tick cfgs inps now cs).1.length = cfgs.length := by
  induction cfgs generalizing cs with
  | nil => rfl
  | cons c rest ih => simp [tick, ih]

/-- C2: a failed fetch for a pool yields an empty result with no cursor
commit; across a whole tick the cursor of a pool whose fetch fails is
unchanged; every configuration of the tick still produces its entry; and
for a configuration whose STONfi fetch fails the DeDust pool is polled
exactly as it would be alone. -/
theorem C2_fetch_failure_isolated :
    (∀ (cfg : GroupConfig) (dex sym pool : String) (last : ℤ)
        (tr : String → Option JValue) (now : ℤ),
      poll_pool cfg dex sym pool last ⟨none, tr⟩ now = .ok ⟨[], [], none⟩) ∧
    (∀ (cfgs : List GroupConfig) (inps : String → PollInput) (now : ℤ)
        (cs : String → ℤ) (p : String),
      (inps p).fetch = none → (tick cfgs inps now cs).2 p = cs p) ∧
    (∀ (cfgs : List GroupConfig) (inps : String → PollInput) (now : ℤ)
        (cs : String → ℤ),
      (tick cfgs inps now cs).1.length = cfgs.length) ∧
    (∀ (cfg : GroupConfig) (inps : String → PollInput) (now : ℤ) (cs : String → ℤ)
        (p1 p2 : String),
      cfg.enabled = true → optPool cfg.stonfi_pool = some p1 →
      optPool cfg.dedust_pool = some p2 → (inps p1).fetch = none →
      (poll_group cfg inps now cs).1 =
        eventsOf (poll_pool cfg "DeDust" (safe_symbol (pyOrStr cfg.token_symbol "TOKEN"))
          p2 (cs p2) (inps p2) now)) := by
  refine ⟨fun _ _ _ _ _ _ _ => rfl, tick_preserve, tick_length, ?_⟩
  intro cfg inps now cs p1 p2 hen ho1 ho2 hf
  simp [poll_group, hen, ho1, ho2]
  rw [poll_pool_fetch_none cfg "STONfi" _ p1 (cs p1) (inps p1) now hf]
  rfl

theorem C2_fetch_failure_isolated_witness :
    ((c2inps "P1").fetch = none ∧
      (tick [c2cfg] c2inps 1000 (fun _ => 3)).2 "P1" = 3) ∧
    (c2cfg.enabled = true ∧ optPool c2cfg.stonfi_pool = some "P1" ∧
      optPool c2cfg.dedust_pool = some "P2" ∧
      (poll_group c2cfg c2inps 1000 (fun _ => 3)).1 =
        eventsOf (poll_pool c2cfg "DeDust"
          (safe_symbol (pyOrStr c2cfg.token_symbol "TOKEN")) "P2" 3 (c2inps "P2") 1000)) :=
  ⟨⟨rfl, C2_fetch_failure_isolated.2.1 [c2cfg] c2inps 1000 (fun _ => 3) "P1" rfl⟩,
   ⟨rfl, rfl, rfl,
    C2_fetch_failure_isolated.2.2.2 c2cfg c2inps 1000 (fun _ => 3) "P1" "P2" rfl rfl rfl rfl⟩⟩

end SpyTON
